import Mathlib

/-!
Shallow embedding of the instance-spec and migration-compatibility core of
the propolis repository, together with proofs checking the natural-language
specification's claims against it.

Rust machine integers (`u8`, `u32`, `u64`, `usize`) are embedded as `Nat`:
the embedded code only compares them for equality and order, so no wraparound
can occur. `Result<(), E>` becomes `Except E Unit`, `Vec<T>` and the
name-keyed `HashMap` become lists (the map invariant of key uniqueness is
carried as an explicit hypothesis where a proof needs it).
-/

/- ------------------------------------------------------------------ -/
/- Data model: board.rs                                               -/
/- ------------------------------------------------------------------ -/

/-- `I440Fx` from board.rs: the only chipset variant's payload. -/
structure I440Fx where
  enable_pcie : Bool
deriving DecidableEq, Repr

/-- `Chipset` from board.rs. -/
inductive Chipset where
  | i440Fx (inner : I440Fx)
deriving DecidableEq, Repr

/-- `CpuidEntry` from board.rs. `leaf`, `eax`..`edx` are `u32`. -/
structure CpuidEntry where
  leaf : Nat
  subleaf : Option Nat
  eax : Nat
  ebx : Nat
  ecx : Nat
  edx : Nat
deriving DecidableEq, Repr

/-- Order-preserving encoding of `Option<u32>` under Rust's derived `Ord`
(`None` sorts below every `Some`): `none ↦ 0`, `some s ↦ s + 1`. -/
def subleafKey : Option Nat → Nat
  | none => 0
  | some s => s + 1

/-- The key realizing Rust's `#[derive(PartialOrd, Ord)]` on `CpuidEntry`:
lexicographic over the fields in declaration order
`(leaf, subleaf, eax, ebx, ecx, edx)`. -/
def CpuidEntry.key (e : CpuidEntry) :
    Lex (Nat × Lex (Nat × Lex (Nat × Lex (Nat × Lex (Nat × Nat))))) :=
  toLex (e.leaf, toLex (subleafKey e.subleaf,
    toLex (e.eax, toLex (e.ebx, toLex (e.ecx, e.edx)))))

/-- The total order `CpuidEntry: Ord` that `sort_unstable` sorts by. -/
def cpuidLe (a b : CpuidEntry) : Prop := a.key ≤ b.key

instance : DecidableRel cpuidLe := fun a b =>
  inferInstanceAs (Decidable (a.key ≤ b.key))

/-- `entries.sort_unstable()` from board.rs. Any sorting algorithm yields the
same list here because `cpuidLe` is total and antisymmetric, so we embed it
as insertion sort. -/
def sortEntries (l : List CpuidEntry) : List CpuidEntry :=
  List.insertionSort cpuidLe l

/-- `Cpuid` from board.rs. -/
inductive Cpuid where
  | bhyveDefault
  | entries (l : List CpuidEntry)
deriving DecidableEq, Repr

/-- `Cpuid::mode` from board.rs. -/
def Cpuid.mode : Cpuid → String
  | .bhyveDefault => "bhyve"
  | .entries _ => "explicit"

/-- `Board` from board.rs. `cpus` is `u8`, `memory_mb` is `u64`. -/
structure Board where
  cpus : Nat
  memory_mb : Nat
  chipset : Chipset
  cpuid : Cpuid
deriving DecidableEq, Repr

/-- `MigrationCompatibilityError` from board.rs (board-level mismatches). -/
inductive MigrationCompatibilityError where
  | cpuCount (a b : Nat)
  | memorySize (a b : Nat)
  | pcieMismatch (a b : Bool)
  | cpuidModeMismatch (a b : String)
  | cpuidEntryLengthMismatch (a b : Nat)
  | cpuidEntryMismatch (a b : CpuidEntry)
deriving DecidableEq, Repr

/-- `ElementCompatibilityError` from the migration module. The
`boardsIncompatible` and `componentsIncomparable` variants are the ones the
in-scope source constructs. The migration module itself is not among the
given sources, so the remaining shape is modelled from the spec:
`componentMismatch` stands for the per-component-kind mismatch errors
produced by the delegated per-kind comparisons (spec section 4.3). -/
inductive ElementCompatibilityError where
  | boardsIncompatible (e : MigrationCompatibilityError)
  | componentsIncomparable (a b : String)
  | componentMismatch (kind : String)
deriving DecidableEq, Repr

deriving instance DecidableEq for Except

/-- `I440Fx::can_migrate_from_element` from board.rs. -/
def I440Fx.can_migrate_from_element (self other : I440Fx) :
    Except ElementCompatibilityError Unit :=
  if self.enable_pcie ≠ other.enable_pcie then
    .error (.boardsIncompatible
      (.pcieMismatch self.enable_pcie other.enable_pcie))
  else
    .ok ()

/-- `Chipset::can_migrate_from_element` from board.rs. -/
def Chipset.can_migrate_from_element (self other : Chipset) :
    Except ElementCompatibilityError Unit :=
  match self, other with
  | .i440Fx this, .i440Fx other => this.can_migrate_from_element other

/-- `CpuidEntry::can_migrate_from_element` from board.rs. -/
def CpuidEntry.can_migrate_from_element (self other : CpuidEntry) :
    Except ElementCompatibilityError Unit :=
  if self ≠ other then
    .error (.boardsIncompatible (.cpuidEntryMismatch self other))
  else
    .ok ()

/-- The `for (this, other) in std::iter::zip(entries, other_entries)` loop in
`Cpuid::can_migrate_from_element`: element-wise check, stopping at the first
failing pair (the `?` operator), and at the end of the shorter list. -/
def cpuidZipCheck : List CpuidEntry → List CpuidEntry →
    Except ElementCompatibilityError Unit
  | x :: xs, y :: ys =>
    match x.can_migrate_from_element y with
    | .error e => .error e
    | .ok _ => cpuidZipCheck xs ys
  | _, _ => .ok ()

/-- `Cpuid::can_migrate_from_element` from board.rs. -/
def Cpuid.can_migrate_from_element (self other : Cpuid) :
    Except ElementCompatibilityError Unit :=
  match self, other with
  | .bhyveDefault, .bhyveDefault => .ok ()
  | .entries es, .entries other_es =>
    if es.length ≠ other_es.length then
      .error (.boardsIncompatible
        (.cpuidEntryLengthMismatch es.length other_es.length))
    else
      cpuidZipCheck (sortEntries es) (sortEntries other_es)
  | s, o =>
    .error (.boardsIncompatible (.cpuidModeMismatch s.mode o.mode))

/-- `Board::can_migrate_from_element` from board.rs. -/
def Board.can_migrate_from_element (self other : Board) :
    Except ElementCompatibilityError Unit :=
  if self.cpus ≠ other.cpus then
    .error (.boardsIncompatible (.cpuCount self.cpus other.cpus))
  else if self.memory_mb ≠ other.memory_mb then
    .error (.boardsIncompatible (.memorySize self.memory_mb other.memory_mb))
  else
    match self.chipset.can_migrate_from_element other.chipset with
    | .error e => .error e
    | .ok _ =>
      match self.cpuid.can_migrate_from_element other.cpuid with
      | .error e => .error e
      | .ok _ => .ok ()

example :
    Cpuid.can_migrate_from_element
      (.entries [⟨1, none, 1, 2, 3, 4⟩, ⟨0, none, 0, 0, 0, 0⟩])
      (.entries [⟨0, none, 0, 0, 0, 0⟩, ⟨1, none, 1, 2, 3, 4⟩]) = .ok () := by
  decide

example :
    Cpuid.can_migrate_from_element (.entries []) .bhyveDefault =
      .error (.boardsIncompatible (.cpuidModeMismatch "explicit" "bhyve")) := by
  decide

/- ------------------------------------------------------------------ -/
/- Data model: component payloads and the ComponentV0 union           -/
/- ------------------------------------------------------------------ -/

/-- Modelled from the spec: a PCI bus/device/function path (the
`PciPath` type lives outside the given sources). -/
structure PciPath where
  bus : Nat
  device : Nat
  function : Nat
deriving DecidableEq, Repr

/-- Modelled from the spec: a serial port number (the `SerialPortNumber`
enum lives outside the given sources; only its identity matters here). -/
def SerialPortNumber := Nat
deriving DecidableEq, Repr

/-- Modelled from the spec: a virtio disk device; carries a backend name
(soft reference) and a PCI path, per spec section 3 and the accessors the
in-scope source uses (`pci_path`, `backend_name`). -/
structure VirtioDisk where
  backend_name : String
  pci_path : PciPath
deriving DecidableEq, Repr

/-- Modelled from the spec: an NVMe disk device. -/
structure NvmeDisk where
  backend_name : String
  pci_path : PciPath
deriving DecidableEq, Repr

/-- Modelled from the spec: a virtio network device. -/
structure VirtioNic where
  backend_name : String
  pci_path : PciPath
deriving DecidableEq, Repr

/-- Modelled from the spec: a serial port device descriptor (`SerialPort`
with field `num`, as the in-scope source accesses it). -/
structure SerialPort where
  num : SerialPortNumber
deriving DecidableEq, Repr

/-- Modelled from the spec: a PCI-PCI bridge device (spec section 4.3 names
its PCI address as the migration-relevant configuration). -/
structure PciPciBridge where
  pci_path : PciPath
deriving DecidableEq, Repr

/-- Modelled from the spec: the platform-panic device payload. -/
structure QemuPvpanic where
  enable_isa : Bool
deriving DecidableEq, Repr

/-- Modelled from the spec: SoftNpu PCI port (falcon-only device). -/
structure SoftNpuPciPort where
  pci_path : PciPath
deriving DecidableEq, Repr

/-- Modelled from the spec: SoftNpu port (falcon-only device); carries a
name and a backend name, as the in-scope source constructs it. -/
structure SoftNpuPort where
  name : String
  backend_name : String
deriving DecidableEq, Repr

/-- Modelled from the spec: SoftNpu P9 device (falcon-only). -/
structure SoftNpuP9 where
  pci_path : PciPath
deriving DecidableEq, Repr

/-- Modelled from the spec: P9 filesystem device (falcon-only). -/
structure P9fs where
  pci_path : PciPath
deriving DecidableEq, Repr

/-- Modelled from the spec: a network-block ("crucible") storage backend's
explicit contents. -/
structure CrucibleStorageBackend where
  request_contents : String
  readonly : Bool
deriving DecidableEq, Repr

/-- Modelled from the spec: a file storage backend's contents. -/
structure FileStorageBackend where
  path : String
  readonly : Bool
deriving DecidableEq, Repr

/-- Modelled from the spec: an in-memory blob storage backend's contents. -/
structure BlobStorageBackend where
  base64 : String
  readonly : Bool
deriving DecidableEq, Repr

/-- Modelled from the spec: a kernel-bypass virtual-NIC network backend. -/
structure VirtioNetworkBackend where
  vnic_name : String
deriving DecidableEq, Repr

/-- Modelled from the spec: a raw-link (DLPI) network backend. -/
structure DlpiNetworkBackend where
  vnic_name : String
deriving DecidableEq, Repr

/-- `ComponentV0` from v0/mod.rs: the closed component union. -/
inductive ComponentV0 where
  | virtioDisk (d : VirtioDisk)
  | nvmeDisk (d : NvmeDisk)
  | virtioNic (n : VirtioNic)
  | serialPort (s : SerialPort)
  | pciPciBridge (b : PciPciBridge)
  | qemuPvpanic (q : QemuPvpanic)
  | softNpuPciPort (p : SoftNpuPciPort)
  | softNpuPort (p : SoftNpuPort)
  | softNpuP9 (p : SoftNpuP9)
  | p9fs (p : P9fs)
  | crucibleBackend (b : CrucibleStorageBackend)
  | fileStorageBackend (b : FileStorageBackend)
  | blobStorageBackend (b : BlobStorageBackend)
  | vionaBackend (b : VirtioNetworkBackend)
  | dlpiBackend (b : DlpiNetworkBackend)
deriving DecidableEq, Repr

/-- `ComponentV0::kind` from v0/mod.rs. -/
def ComponentV0.kind : ComponentV0 → String
  | .virtioDisk _ => "VirtioDisk"
  | .nvmeDisk _ => "NvmeDisk"
  | .virtioNic _ => "VirtioNic"
  | .serialPort _ => "SerialPort"
  | .pciPciBridge _ => "PciPciBridge"
  | .qemuPvpanic _ => "QemuPvpanic"
  | .softNpuPciPort _ => "SoftNpuPciPort"
  | .softNpuPort _ => "SoftNpuPort"
  | .softNpuP9 _ => "SoftNpuP9"
  | .p9fs _ => "P9fs"
  | .crucibleBackend _ => "CrucibleBackend"
  | .fileStorageBackend _ => "FileStorageBackend"
  | .blobStorageBackend _ => "BlobStorageBackend"
  | .vionaBackend _ => "VionaBackend"
  | .dlpiBackend _ => "DlpiBackend"

/-- `ComponentV0::pci_path` from v0/mod.rs. -/
def ComponentV0.pci_path : ComponentV0 → Option PciPath
  | .virtioDisk disk => some disk.pci_path
  | .nvmeDisk disk => some disk.pci_path
  | .virtioNic nic => some nic.pci_path
  | .pciPciBridge bridge => some bridge.pci_path
  | .softNpuPciPort port => some port.pci_path
  | .softNpuP9 p9 => some p9.pci_path
  | .p9fs p => some p.pci_path
  | _ => none

/-- `std::mem::discriminant` equality on `ComponentV0`, embedded as equality
of a constructor index. -/
def ComponentV0.tag : ComponentV0 → Nat
  | .virtioDisk _ => 0
  | .nvmeDisk _ => 1
  | .virtioNic _ => 2
  | .serialPort _ => 3
  | .pciPciBridge _ => 4
  | .qemuPvpanic _ => 5
  | .softNpuPciPort _ => 6
  | .softNpuPort _ => 7
  | .softNpuP9 _ => 8
  | .p9fs _ => 9
  | .crucibleBackend _ => 10
  | .fileStorageBackend _ => 11
  | .blobStorageBackend _ => 12
  | .vionaBackend _ => 13
  | .dlpiBackend _ => 14

/- Per-kind comparisons. These live in source files outside the given
sources; each is modelled from the spec (section 4.3): the delegating kinds
compare their guest-visible configuration/contents for equality and report a
per-kind mismatch. -/

/-- Modelled from the spec: `VirtioDisk::can_migrate_from_element`. -/
def VirtioDisk.can_migrate_from_element (self other : VirtioDisk) :
    Except ElementCompatibilityError Unit :=
  if self ≠ other then .error (.componentMismatch "VirtioDisk") else .ok ()

/-- Modelled from the spec: `NvmeDisk::can_migrate_from_element`. -/
def NvmeDisk.can_migrate_from_element (self other : NvmeDisk) :
    Except ElementCompatibilityError Unit :=
  if self ≠ other then .error (.componentMismatch "NvmeDisk") else .ok ()

/-- Modelled from the spec: `VirtioNic::can_migrate_from_element`. -/
def VirtioNic.can_migrate_from_element (self other : VirtioNic) :
    Except ElementCompatibilityError Unit :=
  if self ≠ other then .error (.componentMismatch "VirtioNic") else .ok ()

/-- Modelled from the spec: `SerialPort::can_migrate_from_element` (compares
the serial port number). -/
def SerialPort.can_migrate_from_element (self other : SerialPort) :
    Except ElementCompatibilityError Unit :=
  if self ≠ other then .error (.componentMismatch "SerialPort") else .ok ()

/-- Modelled from the spec: `PciPciBridge::can_migrate_from_element`
(compares the bridge's PCI address). -/
def PciPciBridge.can_migrate_from_element (self other : PciPciBridge) :
    Except ElementCompatibilityError Unit :=
  if self ≠ other then .error (.componentMismatch "PciPciBridge") else .ok ()

/-- Modelled from the spec: `QemuPvpanic::can_migrate_from_element`. -/
def QemuPvpanic.can_migrate_from_element (self other : QemuPvpanic) :
    Except ElementCompatibilityError Unit :=
  if self ≠ other then .error (.componentMismatch "QemuPvpanic") else .ok ()

/-- Modelled from the spec: the explicit-contents comparison of a crucible
storage backend. -/
def CrucibleStorageBackend.can_migrate_from_element
    (self other : CrucibleStorageBackend) :
    Except ElementCompatibilityError Unit :=
  if self ≠ other then .error (.componentMismatch "CrucibleBackend")
  else .ok ()

/-- Modelled from the spec: the file storage backend comparison. -/
def FileStorageBackend.can_migrate_from_element
    (self other : FileStorageBackend) :
    Except ElementCompatibilityError Unit :=
  if self ≠ other then .error (.componentMismatch "FileStorageBackend")
  else .ok ()

/-- Modelled from the spec: the blob storage backend comparison. -/
def BlobStorageBackend.can_migrate_from_element
    (self other : BlobStorageBackend) :
    Except ElementCompatibilityError Unit :=
  if self ≠ other then .error (.componentMismatch "BlobStorageBackend")
  else .ok ()

/-- Modelled from the spec: the viona network backend comparison. -/
def VirtioNetworkBackend.can_migrate_from_element
    (self other : VirtioNetworkBackend) :
    Except ElementCompatibilityError Unit :=
  if self ≠ other then .error (.componentMismatch "VionaBackend") else .ok ()

/-- Modelled from the spec: the DLPI network backend comparison. -/
def DlpiNetworkBackend.can_migrate_from_element
    (self other : DlpiNetworkBackend) :
    Except ElementCompatibilityError Unit :=
  if self ≠ other then .error (.componentMismatch "DlpiBackend") else .ok ()

/-- `ComponentV0::can_migrate_from_element` from v0/mod.rs: delegate when the
kind has its own check, otherwise succeed on equal discriminants and fail
with `ComponentsIncomparable` on different kinds. -/
def ComponentV0.can_migrate_from_element (self other : ComponentV0) :
    Except ElementCompatibilityError Unit :=
  match self, other with
  | .virtioDisk this, .virtioDisk other => this.can_migrate_from_element other
  | .nvmeDisk this, .nvmeDisk other => this.can_migrate_from_element other
  | .virtioNic this, .virtioNic other => this.can_migrate_from_element other
  | .serialPort this, .serialPort other => this.can_migrate_from_element other
  | .pciPciBridge this, .pciPciBridge other =>
    this.can_migrate_from_element other
  | .qemuPvpanic this, .qemuPvpanic other =>
    this.can_migrate_from_element other
  | .crucibleBackend this, .crucibleBackend other =>
    this.can_migrate_from_element other
  | .fileStorageBackend this, .fileStorageBackend other =>
    this.can_migrate_from_element other
  | .blobStorageBackend this, .blobStorageBackend other =>
    this.can_migrate_from_element other
  | .vionaBackend this, .vionaBackend other =>
    this.can_migrate_from_element other
  | .dlpiBackend this, .dlpiBackend other =>
    this.can_migrate_from_element other
  | s, o =>
    if s.tag = o.tag then
      .ok ()
    else
      .error (.componentsIncomparable s.kind o.kind)

/- ------------------------------------------------------------------ -/
/- Spec-level comparison: v0/mod.rs plus the collection protocol      -/
/- ------------------------------------------------------------------ -/

/-- First-match association-list lookup (the embedding of `HashMap` keyed
access; the map invariant makes the key unique). -/
def alookup {α : Type} (k : String) : List (String × α) → Option α
  | [] => none
  | (k', v) :: rest => if k' = k then some v else alookup k rest

/-- Modelled from the spec: the collection-level error type of the migration
module (spec section 4.4): a key present on only one side is reported with
the component's name, and a failing element check is propagated tagged with
the specific key. -/
inductive CollectionCompatibilityError where
  | missingComponent (name : String)
  | elementMismatch (name : String) (e : ElementCompatibilityError)
deriving DecidableEq, Repr

/-- Modelled from the spec: the key-set phase of the collection check —
every key of the iterated map must be present in `target`; a key absent
from `target` is reported with the component's name. -/
def checkKeysPresent (target : List (String × ComponentV0)) :
    List (String × ComponentV0) → Except CollectionCompatibilityError Unit
  | [] => .ok ()
  | (k, _) :: rest =>
    if (alookup k target).isSome then checkKeysPresent target rest
    else .error (.missingComponent k)

/-- Modelled from the spec: the element phase — for every key present in
both maps, apply the element protocol to the pair, propagating its error
tagged with the specific key on first failure. (The `none` arm cannot be
reached after the key-set phase has passed.) -/
def checkElements (other : List (String × ComponentV0)) :
    List (String × ComponentV0) → Except CollectionCompatibilityError Unit
  | [] => .ok ()
  | (k, v) :: rest =>
    match alookup k other with
    | none => checkElements other rest
    | some w =>
      match v.can_migrate_from_element w with
      | .error e => .error (.elementMismatch k e)
      | .ok _ => checkElements other rest

/-- Modelled from the spec: `can_migrate_from_collection` on the name-keyed
component map (spec section 4.4): treat both maps as sets of keys — any key
present on one side and absent from the other is an incompatibility — then
apply the element protocol to every key present in both. -/
def can_migrate_from_collection (self other : List (String × ComponentV0)) :
    Except CollectionCompatibilityError Unit :=
  match checkKeysPresent other self with
  | .error e => .error e
  | .ok _ =>
    match checkKeysPresent self other with
    | .error e => .error e
    | .ok _ => checkElements other self

/-- `MigrationCompatibilityError` of the migration module (not board.rs).
The module is outside the given sources; the two variants and their tags are
the ones `InstanceSpecV0::can_migrate_from` constructs in v0/mod.rs. -/
inductive SpecMismatchError where
  | elementMismatch (field : String) (e : ElementCompatibilityError)
  | collectionMismatch (field : String) (e : CollectionCompatibilityError)
deriving DecidableEq, Repr

/-- `InstanceSpecV0` from v0/mod.rs (the `HashMap` as an association list
whose keys are unique by map construction). -/
structure InstanceSpecV0 where
  board : Board
  components : List (String × ComponentV0)
deriving DecidableEq, Repr

/-- `InstanceSpecV0::can_migrate_from` from v0/mod.rs: board first, then the
component collection, short-circuiting. -/
def InstanceSpecV0.can_migrate_from (self other : InstanceSpecV0) :
    Except SpecMismatchError Unit :=
  match self.board.can_migrate_from_element other.board with
  | .error e => .error (.elementMismatch "board" e)
  | .ok _ =>
    match can_migrate_from_collection self.components other.components with
    | .error e => .error (.collectionMismatch "components" e)
    | .ok _ => .ok ()

/- ------------------------------------------------------------------ -/
/- The wire-form spec builder: v0/builder.rs                          -/
/- ------------------------------------------------------------------ -/

/-- `SpecBuilderError` from v0/builder.rs (the client-library builder in
instance_spec.rs declares the identical type). -/
inductive SpecBuilderError where
  | nameInUse (name : String)
  | serialPortInUse (port : SerialPortNumber)
  | pciPathInUse (path : PciPath)
deriving DecidableEq, Repr

/-- `SpecBuilder` from v0/builder.rs. The two `BTreeSet`s are embedded as
lists with membership. -/
structure SpecBuilder where
  spec : InstanceSpecV0
  serial_ports : List SerialPortNumber
  pci_paths : List PciPath
deriving DecidableEq, Repr

/-- `SpecBuilder::new` from v0/builder.rs. -/
def SpecBuilder.new (cpus memory_mb : Nat) : SpecBuilder :=
  { spec :=
      { board :=
          { cpus := cpus
            memory_mb := memory_mb
            chipset := .i440Fx { enable_pcie := false }
            cpuid := .bhyveDefault }
        components := [] }
    serial_ports := []
    pci_paths := [] }

/-- `SpecBuilder::add_component` from v0/builder.rs, embedded with the Rust
method's in-place-mutation semantics: the result is the builder state after
the call paired with the error, if any. The checks run in source order:
component name, then PCI path (only for components that have one), then
serial port number (only for serial ports); a failing check returns before
inserting anything. Note that in the source a single call can never mutate
state and then fail: the serial-port check is only reached for
`SerialPort` components, whose `pci_path()` is `None`, so the PCI
registration never precedes a serial-port failure. -/
def SpecBuilder.add_component (b : SpecBuilder) (name : String)
    (component : ComponentV0) : SpecBuilder × Option SpecBuilderError :=
  if (alookup name b.spec.components).isSome then
    (b, some (.nameInUse name))
  else
    match component.pci_path with
    | some p =>
      if p ∈ b.pci_paths then
        (b, some (.pciPathInUse p))
      else
        ({ b with
            pci_paths := p :: b.pci_paths
            spec :=
              { b.spec with
                components := b.spec.components ++ [(name, component)] } },
          none)
    | none =>
      match component with
      | .serialPort port =>
        if port.num ∈ b.serial_ports then
          (b, some (.serialPortInUse port.num))
        else
          ({ b with
              serial_ports := port.num :: b.serial_ports
              spec :=
                { b.spec with
                  components := b.spec.components ++ [(name, component)] } },
            none)
      | _ =>
        ({ b with
            spec :=
              { b.spec with
                components := b.spec.components ++ [(name, component)] } },
          none)

/- ------------------------------------------------------------------ -/
/- Grouped (internal) spec and wire <-> grouped conversion            -/
/- (api_spec_v0.rs; the grouped Spec type and its builder live        -/
/- outside the given sources and are modelled from the spec)          -/
/- ------------------------------------------------------------------ -/

/-- `StorageDevice` (disk device union) as used by api_spec_v0.rs. -/
inductive StorageDevice where
  | virtioDisk (d : VirtioDisk)
  | nvmeDisk (d : NvmeDisk)
deriving DecidableEq, Repr

/-- `StorageDevice::backend_name` as used by api_spec_v0.rs. -/
def StorageDevice.backend_name : StorageDevice → String
  | .virtioDisk d => d.backend_name
  | .nvmeDisk d => d.backend_name

/-- The PCI path of a storage device (both disk kinds carry one). -/
def StorageDevice.pci_path : StorageDevice → PciPath
  | .virtioDisk d => d.pci_path
  | .nvmeDisk d => d.pci_path

/-- The `StorageDevice -> ComponentV0` injection (`device_spec.into()`). -/
def StorageDevice.into : StorageDevice → ComponentV0
  | .virtioDisk d => .virtioDisk d
  | .nvmeDisk d => .nvmeDisk d

/-- `StorageBackend` (storage backend union) as used by api_spec_v0.rs. -/
inductive StorageBackend where
  | crucible (b : CrucibleStorageBackend)
  | file (b : FileStorageBackend)
  | blob (b : BlobStorageBackend)
deriving DecidableEq, Repr

/-- The `StorageBackend -> ComponentV0` injection (`backend_spec.into()`). -/
def StorageBackend.into : StorageBackend → ComponentV0
  | .crucible b => .crucibleBackend b
  | .file b => .fileStorageBackend b
  | .blob b => .blobStorageBackend b

/-- `Disk` of the grouped spec: a disk device with its resolved backend. -/
structure Disk where
  device_spec : StorageDevice
  backend_spec : StorageBackend
deriving DecidableEq, Repr

/-- `Nic` of the grouped spec: a virtio NIC with its resolved backend. -/
structure Nic where
  device_spec : VirtioNic
  backend_spec : VirtioNetworkBackend
deriving DecidableEq, Repr

/-- `SerialPortUser` of the grouped spec: who owns a serial port. Only
`standard` ports round-trip to the wire form (api_spec_v0.rs). -/
inductive SerialPortUser where
  | standard
  | softNpu
deriving DecidableEq, Repr

/-- A grouped-spec serial port entry (`desc.num`, `desc.user`). -/
structure SerialPortEntry where
  num : SerialPortNumber
  user : SerialPortUser
deriving DecidableEq, Repr

/-- The grouped spec's pvpanic entry (`pvpanic.name`, `pvpanic.spec`). -/
structure PvpanicEntry where
  name : String
  spec : QemuPvpanic
deriving DecidableEq, Repr

/-- Modelled from the spec: the grouped (internal) `Spec` of the
propolis-server spec module (spec section 3), restricted to the non-falcon
build that api_spec_v0.rs compiles to: kind-partitioned maps of disks,
NICs, serial ports and PCI bridges plus an optional pvpanic device. -/
structure Spec where
  board : Board
  disks : List (String × Disk)
  nics : List (String × Nic)
  serial : List (String × SerialPortEntry)
  pci_pci_bridges : List (String × PciPciBridge)
  pvpanic : Option PvpanicEntry
deriving DecidableEq, Repr

/-- Modelled from the spec: the grouped-spec builder of the propolis-server
spec module. It reuses the wire builder's uniqueness rules (spec section
4.2): a set of used component names, used PCI paths and used serial port
numbers. -/
structure ServerSpecBuilder where
  spec : Spec
  names : List String
  pci_paths : List PciPath
  serial_ports : List SerialPortNumber
deriving DecidableEq, Repr

/-- Modelled from the spec: `SpecBuilder::with_board`. -/
def ServerSpecBuilder.with_board (board : Board) : ServerSpecBuilder :=
  { spec :=
      { board := board
        disks := []
        nics := []
        serial := []
        pci_pci_bridges := []
        pvpanic := none }
    names := []
    pci_paths := []
    serial_ports := [] }

/-- `ApiSpecParseError` from api_spec_v0.rs. -/
inductive ApiSpecParseError where
  | builderError (e : SpecBuilderError)
  | storageBackendNotFound (backend device : String)
  | networkBackendNotFound (backend device : String)
  | softNpuCompiledOut (component : String)
  | backendNotUsed (backend : String)
deriving DecidableEq, Repr

/-- Modelled from the spec: registering a fresh component name in the
grouped-spec builder (name rule of spec section 4.1). -/
def ServerSpecBuilder.takeName (b : ServerSpecBuilder) (name : String) :
    Except ApiSpecParseError ServerSpecBuilder :=
  if name ∈ b.names then .error (.builderError (.nameInUse name))
  else .ok { b with names := name :: b.names }

/-- Modelled from the spec: registering a PCI path (PCI rule of spec
section 4.1). -/
def ServerSpecBuilder.takePciPath (b : ServerSpecBuilder) (p : PciPath) :
    Except ApiSpecParseError ServerSpecBuilder :=
  if p ∈ b.pci_paths then .error (.builderError (.pciPathInUse p))
  else .ok { b with pci_paths := p :: b.pci_paths }

/-- Modelled from the spec: `add_storage_device` — registers the device
name, the backend name and the device's PCI path, then records the
device+backend pair in the disks map. -/
def ServerSpecBuilder.add_storage_device (b : ServerSpecBuilder)
    (name : String) (disk : Disk) :
    Except ApiSpecParseError ServerSpecBuilder := do
  let b ← b.takeName name
  let b ← b.takeName disk.device_spec.backend_name
  let b ← b.takePciPath disk.device_spec.pci_path
  .ok { b with spec := { b.spec with disks := b.spec.disks ++ [(name, disk)] } }

/-- Modelled from the spec: `add_network_device`. -/
def ServerSpecBuilder.add_network_device (b : ServerSpecBuilder)
    (name : String) (nic : Nic) :
    Except ApiSpecParseError ServerSpecBuilder := do
  let b ← b.takeName name
  let b ← b.takeName nic.device_spec.backend_name
  let b ← b.takePciPath nic.device_spec.pci_path
  .ok { b with spec := { b.spec with nics := b.spec.nics ++ [(name, nic)] } }

/-- Modelled from the spec: `add_serial_port` — wire-spec serial ports are
standard-user ports; the port number must be unclaimed. -/
def ServerSpecBuilder.add_serial_port (b : ServerSpecBuilder)
    (name : String) (num : SerialPortNumber) :
    Except ApiSpecParseError ServerSpecBuilder := do
  let b ← b.takeName name
  if num ∈ b.serial_ports then
    .error (.builderError (.serialPortInUse num))
  else
    .ok { b with
      serial_ports := num :: b.serial_ports
      spec :=
        { b.spec with
          serial := b.spec.serial ++ [(name, ⟨num, .standard⟩)] } }

/-- Modelled from the spec: `add_pci_bridge`. -/
def ServerSpecBuilder.add_pci_bridge (b : ServerSpecBuilder)
    (name : String) (bridge : PciPciBridge) :
    Except ApiSpecParseError ServerSpecBuilder := do
  let b ← b.takeName name
  let b ← b.takePciPath bridge.pci_path
  .ok { b with
    spec :=
      { b.spec with
        pci_pci_bridges := b.spec.pci_pci_bridges ++ [(name, bridge)] } }

/-- Modelled from the spec: `add_pvpanic_device` — at most one panic device
may exist; its name obeys the usual name rule. -/
def ServerSpecBuilder.add_pvpanic_device (b : ServerSpecBuilder)
    (dev : PvpanicEntry) : Except ApiSpecParseError ServerSpecBuilder := do
  let b ← b.takeName dev.name
  match b.spec.pvpanic with
  | some old => .error (.builderError (.nameInUse old.name))
  | none => .ok { b with spec := { b.spec with pvpanic := some dev } }

/-- `SpecBuilder::finish` of the grouped-spec builder. -/
def ServerSpecBuilder.finish (b : ServerSpecBuilder) : Spec := b.spec

/-- The device (non-backend) component kinds, as the first pass of
`TryFrom<InstanceSpecV0> for Spec` partitions them: everything except the
three storage-backend kinds and the two network-backend kinds. The
separate type captures the source's `unreachable!("already filtered out
backends")` invariant. -/
inductive DeviceComponent where
  | virtioDisk (d : VirtioDisk)
  | nvmeDisk (d : NvmeDisk)
  | virtioNic (n : VirtioNic)
  | serialPort (s : SerialPort)
  | pciPciBridge (b : PciPciBridge)
  | qemuPvpanic (q : QemuPvpanic)
  | softNpuPciPort (p : SoftNpuPciPort)
  | softNpuPort (p : SoftNpuPort)
  | softNpuP9 (p : SoftNpuP9)
  | p9fs (p : P9fs)
deriving DecidableEq, Repr

/-- The `ComponentV0` a partitioned device entry came from. -/
def DeviceComponent.into : DeviceComponent → ComponentV0
  | .virtioDisk d => .virtioDisk d
  | .nvmeDisk d => .nvmeDisk d
  | .virtioNic n => .virtioNic n
  | .serialPort s => .serialPort s
  | .pciPciBridge b => .pciPciBridge b
  | .qemuPvpanic q => .qemuPvpanic q
  | .softNpuPciPort p => .softNpuPciPort p
  | .softNpuPort p => .softNpuPort p
  | .softNpuP9 p => .softNpuP9 p
  | .p9fs p => .p9fs p

/-- The four buckets of the first pass of `TryFrom<InstanceSpecV0> for
Spec` (api_spec_v0.rs): devices in iteration order, and the storage,
viona and DLPI backend maps. -/
structure PartitionedComponents where
  devices : List (String × DeviceComponent)
  storage_backends : List (String × StorageBackend)
  viona_backends : List (String × VirtioNetworkBackend)
  dlpi_backends : List (String × DlpiNetworkBackend)
deriving DecidableEq, Repr

/-- The first pass over `value.components` in api_spec_v0.rs: partition
into storage backends, network backends and devices, keyed by name. -/
def partitionComponents :
    List (String × ComponentV0) → PartitionedComponents
  | [] =>
    { devices := [], storage_backends := [], viona_backends := []
      dlpi_backends := [] }
  | (name, c) :: rest =>
    let p := partitionComponents rest
    match c with
    | .crucibleBackend b =>
      { p with storage_backends := (name, .crucible b) :: p.storage_backends }
    | .fileStorageBackend b =>
      { p with storage_backends := (name, .file b) :: p.storage_backends }
    | .blobStorageBackend b =>
      { p with storage_backends := (name, .blob b) :: p.storage_backends }
    | .vionaBackend v =>
      { p with viona_backends := (name, v) :: p.viona_backends }
    | .dlpiBackend d =>
      { p with dlpi_backends := (name, d) :: p.dlpi_backends }
    | .virtioDisk d => { p with devices := (name, .virtioDisk d) :: p.devices }
    | .nvmeDisk d => { p with devices := (name, .nvmeDisk d) :: p.devices }
    | .virtioNic n => { p with devices := (name, .virtioNic n) :: p.devices }
    | .serialPort s => { p with devices := (name, .serialPort s) :: p.devices }
    | .pciPciBridge b =>
      { p with devices := (name, .pciPciBridge b) :: p.devices }
    | .qemuPvpanic q =>
      { p with devices := (name, .qemuPvpanic q) :: p.devices }
    | .softNpuPciPort q =>
      { p with devices := (name, .softNpuPciPort q) :: p.devices }
    | .softNpuPort q =>
      { p with devices := (name, .softNpuPort q) :: p.devices }
    | .softNpuP9 q => { p with devices := (name, .softNpuP9 q) :: p.devices }
    | .p9fs q => { p with devices := (name, .p9fs q) :: p.devices }

/-- `HashMap::remove_entry` keyed by `k` on an association list: the value
of the first entry with key `k` and the list without that entry. -/
def removeEntry {α : Type} (k : String) :
    List (String × α) → Option (α × List (String × α))
  | [] => none
  | (k', v) :: rest =>
    if k' = k then
      some (v, rest)
    else
      match removeEntry k rest with
      | none => none
      | some (w, rest') => some (w, (k', v) :: rest')

/-- The state threaded through the second pass of
`TryFrom<InstanceSpecV0> for Spec`: the grouped-spec builder plus the
unconsumed backend buckets. -/
structure ConvState where
  builder : ServerSpecBuilder
  storage_backends : List (String × StorageBackend)
  viona_backends : List (String × VirtioNetworkBackend)
  dlpi_backends : List (String × DlpiNetworkBackend)
deriving DecidableEq, Repr

/-- One iteration of the `for (device_name, device_spec) in devices` loop
of api_spec_v0.rs (non-falcon build: the SoftNpu and P9 kinds fail with
`SoftNpuCompiledOut`). -/
def processDevice (st : ConvState) (device_name : String)
    (device_spec : DeviceComponent) : Except ApiSpecParseError ConvState :=
  match device_spec with
  | .virtioDisk d =>
    match removeEntry d.backend_name st.storage_backends with
    | none =>
      .error (.storageBackendNotFound d.backend_name device_name)
    | some (backend_spec, rest) => do
      let b ← st.builder.add_storage_device device_name
        ⟨.virtioDisk d, backend_spec⟩
      .ok { st with builder := b, storage_backends := rest }
  | .nvmeDisk d =>
    match removeEntry d.backend_name st.storage_backends with
    | none =>
      .error (.storageBackendNotFound d.backend_name device_name)
    | some (backend_spec, rest) => do
      let b ← st.builder.add_storage_device device_name
        ⟨.nvmeDisk d, backend_spec⟩
      .ok { st with builder := b, storage_backends := rest }
  | .virtioNic nic =>
    match removeEntry nic.backend_name st.viona_backends with
    | none =>
      .error (.networkBackendNotFound nic.backend_name device_name)
    | some (backend_spec, rest) => do
      let b ← st.builder.add_network_device device_name ⟨nic, backend_spec⟩
      .ok { st with builder := b, viona_backends := rest }
  | .serialPort port => do
    let b ← st.builder.add_serial_port device_name port.num
    .ok { st with builder := b }
  | .pciPciBridge bridge => do
    let b ← st.builder.add_pci_bridge device_name bridge
    .ok { st with builder := b }
  | .qemuPvpanic pvpanic => do
    let b ← st.builder.add_pvpanic_device ⟨device_name, pvpanic⟩
    .ok { st with builder := b }
  | .softNpuPciPort _ => .error (.softNpuCompiledOut device_name)
  | .softNpuPort _ => .error (.softNpuCompiledOut device_name)
  | .softNpuP9 _ => .error (.softNpuCompiledOut device_name)
  | .p9fs _ => .error (.softNpuCompiledOut device_name)

/-- The second pass of `TryFrom<InstanceSpecV0> for Spec`: fold
`processDevice` over the partitioned devices, stopping at the first
error. -/
def processDevices (st : ConvState) :
    List (String × DeviceComponent) → Except ApiSpecParseError ConvState
  | [] => .ok st
  | (name, dev) :: rest =>
    match processDevice st name dev with
    | .error e => .error e
    | .ok st' => processDevices st' rest

/-- The initial state of the second pass of `TryFrom<InstanceSpecV0> for
Spec`: a grouped-spec builder seeded with the board, plus the partitioned
backend buckets. -/
def initConvState (value : InstanceSpecV0) : ConvState :=
  { builder := ServerSpecBuilder.with_board value.board
    storage_backends := (partitionComponents value.components).storage_backends
    viona_backends := (partitionComponents value.components).viona_backends
    dlpi_backends := (partitionComponents value.components).dlpi_backends }

/-- `TryFrom<InstanceSpecV0> for Spec` from api_spec_v0.rs (wire form to
grouped form): partition, resolve devices against the backend buckets,
then reject any unconsumed backend as an orphan. -/
def wireToGrouped (value : InstanceSpecV0) :
    Except ApiSpecParseError Spec :=
  match processDevices (initConvState value)
      (partitionComponents value.components).devices with
  | .error e => .error e
  | .ok st =>
    match st.storage_backends with
    | (backend, _) :: _ => .error (.backendNotUsed backend)
    | [] =>
      match st.viona_backends with
      | (backend, _) :: _ => .error (.backendNotUsed backend)
      | [] =>
        match st.dlpi_backends with
        | (backend, _) :: _ => .error (.backendNotUsed backend)
        | [] => .ok st.builder.finish

/-- The component insertions of `From<Spec> for InstanceSpecV0`
(api_spec_v0.rs), in source order: each disk re-flattens to its device
component under the disk name plus its backend component under the
backend's name; likewise each NIC; serial ports re-emit only
standard-user entries; then bridges and the optional pvpanic device. The
`HashMap` insertions (asserted collision-free in the source) are embedded
as list concatenation. -/
def emitComponents (s : Spec) : List (String × ComponentV0) :=
  (s.disks.flatMap fun (disk_name, disk) =>
    [(disk_name, disk.device_spec.into),
     (disk.device_spec.backend_name, disk.backend_spec.into)]) ++
  (s.nics.flatMap fun (nic_name, nic) =>
    [(nic_name, .virtioNic nic.device_spec),
     (nic.device_spec.backend_name, .vionaBackend nic.backend_spec)]) ++
  (s.serial.filterMap fun (name, desc) =>
    if desc.user = .standard then some (name, .serialPort ⟨desc.num⟩)
    else none) ++
  (s.pci_pci_bridges.map fun (bridge_name, bridge) =>
    (bridge_name, .pciPciBridge bridge)) ++
  (match s.pvpanic with
   | some pvpanic => [(pvpanic.name, .qemuPvpanic pvpanic.spec)]
   | none => [])

/-- `From<Spec> for InstanceSpecV0` from api_spec_v0.rs (grouped form back
to wire form). -/
def groupedToWire (val : Spec) : InstanceSpecV0 :=
  { board := val.board, components := emitComponents val }

/- ------------------------------------------------------------------ -/
/- Order-theoretic facts about the CpuidEntry total order             -/
/- ------------------------------------------------------------------ -/

theorem subleafKey_inj {a b : Option Nat} (h : subleafKey a = subleafKey b) :
    a = b := by
  cases a <;> cases b <;> simp only [subleafKey] at h <;> simp_all

theorem cpuidKey_inj {a b : CpuidEntry} (h : a.key = b.key) : a = b := by
  cases a; cases b
  simp only [CpuidEntry.key, toLex_inj, Prod.mk.injEq] at h
  obtain ⟨h1, h2, h3, h4, h5, h6⟩ := h
  cases subleafKey_inj h2
  simp_all

instance : IsTrans CpuidEntry cpuidLe :=
  ⟨fun _ _ _ hab hbc => le_trans hab hbc⟩

instance : IsTotal CpuidEntry cpuidLe :=
  ⟨fun a b => le_total a.key b.key⟩

instance : IsAntisymm CpuidEntry cpuidLe :=
  ⟨fun _ _ hab hba => cpuidKey_inj (le_antisymm hab hba)⟩

theorem sortEntries_sorted (l : List CpuidEntry) :
    List.Sorted cpuidLe (sortEntries l) :=
  List.sorted_insertionSort cpuidLe l

theorem sortEntries_perm (l : List CpuidEntry) : (sortEntries l).Perm l :=
  List.perm_insertionSort cpuidLe l

/-- Sorting is a canonical form: permuted inputs sort identically. -/
theorem sortEntries_eq_of_perm {l1 l2 : List CpuidEntry} (h : l1.Perm l2) :
    sortEntries l1 = sortEntries l2 :=
  List.eq_of_perm_of_sorted
    ((sortEntries_perm l1).trans (h.trans (sortEntries_perm l2).symm))
    (sortEntries_sorted l1) (sortEntries_sorted l2)

theorem cpuidZipCheck_refl (l : List CpuidEntry) :
    cpuidZipCheck l l = .ok () := by
  induction l with
  | nil => rfl
  | cons x xs ih =>
    simp only [cpuidZipCheck, CpuidEntry.can_migrate_from_element]
    simp [ih]

/- ------------------------------------------------------------------ -/
/- C3: board comparison order                                         -/
/- ------------------------------------------------------------------ -/

/-- The PCIe-enablement flag of a chipset (for stating C3). -/
def Chipset.enablePcie : Chipset → Bool
  | .i440Fx inner => inner.enable_pcie

/-- C3: `Board::can_migrate_from_element` compares fields in the fixed
order CPU count, then memory size, then chipset (PCIe-flag equality), then
CPUID, returning the error for the first mismatching field only; in the
concrete scenario Board A `{cpus 4, memory_mb 4096, I440Fx pcie=true,
BhyveDefault}` vs B identical except `cpus 8` the result names a CPU-count
mismatch of (4, 8). -/
theorem board_check_order :
    (∀ a b : Board, a.cpus ≠ b.cpus →
      a.can_migrate_from_element b =
        .error (.boardsIncompatible (.cpuCount a.cpus b.cpus))) ∧
    (∀ a b : Board, a.cpus = b.cpus → a.memory_mb ≠ b.memory_mb →
      a.can_migrate_from_element b =
        .error (.boardsIncompatible
          (.memorySize a.memory_mb b.memory_mb))) ∧
    (∀ a b : Board, a.cpus = b.cpus → a.memory_mb = b.memory_mb →
      a.chipset.enablePcie ≠ b.chipset.enablePcie →
      a.can_migrate_from_element b =
        .error (.boardsIncompatible
          (.pcieMismatch a.chipset.enablePcie b.chipset.enablePcie))) ∧
    (∀ a b : Board, a.cpus = b.cpus → a.memory_mb = b.memory_mb →
      a.chipset.enablePcie = b.chipset.enablePcie →
      a.can_migrate_from_element b =
        a.cpuid.can_migrate_from_element b.cpuid) ∧
    (Board.can_migrate_from_element
        ⟨4, 4096, .i440Fx ⟨true⟩, .bhyveDefault⟩
        ⟨8, 4096, .i440Fx ⟨true⟩, .bhyveDefault⟩ =
      .error (.boardsIncompatible (.cpuCount 4 8))) := by
  refine ⟨?_, ?_, ?_, ?_, by decide⟩
  · intro a b h
    simp [Board.can_migrate_from_element, h]
  · intro a b h1 h2
    simp [Board.can_migrate_from_element, h1, h2]
  · intro a b h1 h2 h3
    rcases a with ⟨ac, am, ⟨⟨pa⟩⟩, aq⟩
    rcases b with ⟨bc, bm, ⟨⟨pb⟩⟩, bq⟩
    simp only [Chipset.enablePcie] at h3 ⊢
    simp only at h1 h2
    subst h1 h2
    simp [Board.can_migrate_from_element,
      Chipset.can_migrate_from_element, I440Fx.can_migrate_from_element, h3]
  · intro a b h1 h2 h3
    rcases a with ⟨ac, am, ⟨⟨pa⟩⟩, aq⟩
    rcases b with ⟨bc, bm, ⟨⟨pb⟩⟩, bq⟩
    simp only [Chipset.enablePcie] at h3
    simp only at h1 h2
    subst h1 h2 h3
    simp only [Board.can_migrate_from_element,
      Chipset.can_migrate_from_element, I440Fx.can_migrate_from_element]
    simp only [ne_eq, not_true_eq_false, if_false]
    cases h : Cpuid.can_migrate_from_element aq bq <;> simp [h]

/-- Witness for C3 at a concrete input (first conjunct). -/
theorem board_check_order_witness :
    Board.can_migrate_from_element
        ⟨2, 1024, .i440Fx ⟨false⟩, .bhyveDefault⟩
        ⟨3, 1024, .i440Fx ⟨false⟩, .bhyveDefault⟩ =
      .error (.boardsIncompatible (.cpuCount 2 3)) :=
  board_check_order.1 _ _ (by decide)

/- ------------------------------------------------------------------ -/
/- C1: the CPUID compatibility policy                                 -/
/- ------------------------------------------------------------------ -/

/-- The strict part of the spec-side subleaf order: `None` below every
`Some`, `Some` values by their contents. -/
def subleafLt : Option Nat → Option Nat → Prop
  | none, some _ => True
  | some a, some b => a < b
  | _, _ => False

/-- The CpuidEntry total order as the spec words it: lexicographic over
`(leaf, subleaf, eax, ebx, ecx, edx)`. Stated independently of the
embedding's `cpuidLe` so the two can be compared. -/
def specEntryLe (a b : CpuidEntry) : Prop :=
  a.leaf < b.leaf ∨ (a.leaf = b.leaf ∧
    (subleafLt a.subleaf b.subleaf ∨ (a.subleaf = b.subleaf ∧
      (a.eax < b.eax ∨ (a.eax = b.eax ∧
        (a.ebx < b.ebx ∨ (a.ebx = b.ebx ∧
          (a.ecx < b.ecx ∨ (a.ecx = b.ecx ∧ a.edx ≤ b.edx)))))))))

/-- The embedded order agrees with the spec-side order. -/
theorem cpuidLe_iff_spec (a b : CpuidEntry) : cpuidLe a b ↔ specEntryLe a b := by
  unfold cpuidLe specEntryLe CpuidEntry.key
  rw [Prod.Lex.le_iff, Prod.Lex.le_iff, Prod.Lex.le_iff, Prod.Lex.le_iff,
    Prod.Lex.le_iff]
  cases ha : a.subleaf <;> cases hb : b.subleaf <;>
    simp [subleafKey, subleafLt]

instance : DecidableRel specEntryLe := fun a b =>
  decidable_of_iff _ (cpuidLe_iff_spec a b)

/-- The first unequal pair of two lists, compared position-wise. -/
def firstUnequalPair : List CpuidEntry → List CpuidEntry →
    Option (CpuidEntry × CpuidEntry)
  | x :: xs, y :: ys =>
    if x = y then firstUnequalPair xs ys else some (x, y)
  | _, _ => none

/-- The four-case CPUID migration policy exactly as the spec words it:
same modes `BhyveDefault` succeed; two `Entries` lists of different
lengths fail with `CpuidEntryLengthMismatch` carrying both lengths; two
`Entries` lists of equal length are sorted independently by the spec-side
total order and compared element-wise, failing on the first unequal pair;
mixed modes fail with `CpuidModeMismatch` regardless of content. -/
def cpuidPolicySpec (self other : Cpuid) :
    Except ElementCompatibilityError Unit :=
  match self, other with
  | .bhyveDefault, .bhyveDefault => .ok ()
  | .entries es, .entries os =>
    if es.length = os.length then
      match firstUnequalPair (List.insertionSort specEntryLe es)
          (List.insertionSort specEntryLe os) with
      | some (a, b) => .error (.boardsIncompatible (.cpuidEntryMismatch a b))
      | none => .ok ()
    else
      .error (.boardsIncompatible
        (.cpuidEntryLengthMismatch es.length os.length))
  | .bhyveDefault, .entries _ =>
    .error (.boardsIncompatible (.cpuidModeMismatch "bhyve" "explicit"))
  | .entries _, .bhyveDefault =>
    .error (.boardsIncompatible (.cpuidModeMismatch "explicit" "bhyve"))

theorem orderedInsert_spec_eq (a : CpuidEntry) (l : List CpuidEntry) :
    List.orderedInsert specEntryLe a l = List.orderedInsert cpuidLe a l := by
  induction l with
  | nil => rfl
  | cons b t ih =>
    simp only [List.orderedInsert]
    by_cases h : cpuidLe a b
    · rw [if_pos ((cpuidLe_iff_spec a b).mp h), if_pos h]
    · rw [if_neg (fun hs => h ((cpuidLe_iff_spec a b).mpr hs)), if_neg h, ih]

theorem insertionSort_spec_eq (l : List CpuidEntry) :
    List.insertionSort specEntryLe l = sortEntries l := by
  unfold sortEntries
  induction l with
  | nil => rfl
  | cons a t ih => simp only [List.insertionSort, ih, orderedInsert_spec_eq]

theorem cpuidZipCheck_eq_firstUnequal (l1 l2 : List CpuidEntry) :
    cpuidZipCheck l1 l2 =
      (match firstUnequalPair l1 l2 with
       | some (a, b) => .error (.boardsIncompatible (.cpuidEntryMismatch a b))
       | none => .ok ()) := by
  induction l1 generalizing l2 with
  | nil => cases l2 <;> rfl
  | cons x xs ih =>
    cases l2 with
    | nil => rfl
    | cons y ys =>
      simp only [cpuidZipCheck, firstUnequalPair,
        CpuidEntry.can_migrate_from_element]
      by_cases h : x = y
      · simp [h, ih]
      · simp [h]

/-- C1: `Cpuid::can_migrate_from_element` implements exactly the four-case
policy of the spec (BhyveDefault/BhyveDefault succeeds; Entries/Entries
with differing lengths fails with `CpuidEntryLengthMismatch` carrying both
lengths; Entries/Entries with equal lengths sorts both sequences
independently by the CpuidEntry total order and compares element-wise,
failing on the first unequal pair; mixed modes fail with
`CpuidModeMismatch` regardless of content). -/
theorem cpuid_check_implements_policy (c c' : Cpuid) :
    c.can_migrate_from_element c' = cpuidPolicySpec c c' := by
  cases c with
  | bhyveDefault => cases c' <;> rfl
  | entries es =>
    cases c' with
    | bhyveDefault => rfl
    | entries os =>
      simp only [Cpuid.can_migrate_from_element, cpuidPolicySpec,
        insertionSort_spec_eq, cpuidZipCheck_eq_firstUnequal]
      by_cases h : es.length = os.length
      · simp [h]
      · simp [h]

/- ------------------------------------------------------------------ -/
/- C2: order-insensitivity and single-entry sensitivity               -/
/- ------------------------------------------------------------------ -/

/-- Replacing the `i`-th element changes element counts by exactly
trading one copy of the old element for one copy of the new one. -/
theorem count_set_eq {l : List CpuidEntry} {i : Nat} (hi : i < l.length)
    (f z : CpuidEntry) :
    (l.set i f).count z + (if z = l[i] then 1 else 0) =
      l.count z + (if z = f then 1 else 0) := by
  induction l generalizing i with
  | nil => simp at hi
  | cons x xs ih =>
    cases i with
    | zero =>
      have h1 : (x :: xs).set 0 f = f :: xs := rfl
      have h2 : (x :: xs)[0] = x := rfl
      rw [h1, h2, List.count_cons, List.count_cons]
      simp only [beq_iff_eq]
      have hf2 : (f = z) = (z = f) := propext ⟨Eq.symm, Eq.symm⟩
      have hx2 : (x = z) = (z = x) := propext ⟨Eq.symm, Eq.symm⟩
      simp only [hf2, hx2]
      omega
    | succ n =>
      have hn : n < xs.length := by simpa using hi
      have hset : (x :: xs).set (n + 1) f = x :: xs.set n f := rfl
      have hget : (x :: xs)[n + 1] = xs[n] := rfl
      rw [hset, hget, List.count_cons, List.count_cons]
      simp only [beq_iff_eq]
      have h := ih hn
      omega

/-- If two sorted equal-length lists differ as multisets by trading one
copy of `e` for one copy of `f`, the element-wise check fails at a first
unequal pair, and that pair contains `e` on the left or `f` on the
right. -/
theorem zip_first_diff {e f : CpuidEntry} (hef : e ≠ f) :
    ∀ (s s' : List CpuidEntry), s.length = s'.length →
    List.Sorted cpuidLe s → List.Sorted cpuidLe s' →
    (∀ z, s'.count z + (if z = e then 1 else 0) =
      s.count z + (if z = f then 1 else 0)) →
    ∃ a b, a ≠ b ∧ (a = e ∨ b = f) ∧
      cpuidZipCheck s s' =
        .error (.boardsIncompatible (.cpuidEntryMismatch a b))
  | [], s', hlen, _, _, hcount => by
    have hnil : s' = [] := by cases s' <;> simp_all
    subst hnil
    have h := hcount e
    simp [hef] at h
  | x :: xs, [], hlen, _, _, _ => by simp at hlen
  | x :: xs, y :: ys, hlen, hs, hs', hcount => by
    by_cases hxy : x = y
    · subst hxy
      have hcount' : ∀ z, ys.count z + (if z = e then 1 else 0) =
          xs.count z + (if z = f then 1 else 0) := by
        intro z
        have h := hcount z
        simp only [List.count_cons] at h
        omega
      obtain ⟨a, b, hab, hor, hzip⟩ :=
        zip_first_diff hef xs ys (by simpa using hlen)
          (List.sorted_cons.mp hs).2 (List.sorted_cons.mp hs').2 hcount'
      refine ⟨a, b, hab, hor, ?_⟩
      simpa [cpuidZipCheck, CpuidEntry.can_migrate_from_element] using hzip
    · rcases IsTotal.total (r := cpuidLe) x y with hle | hle
      · refine ⟨x, y, hxy, .inl ?_, ?_⟩
        · have hx_not : x ∉ y :: ys := by
            intro hmem
            rcases List.mem_cons.mp hmem with h | h
            · exact hxy h
            · exact hxy (IsAntisymm.antisymm _ _ hle
                ((List.sorted_cons.mp hs').1 x h))
          have hzero : (y :: ys).count x = 0 :=
            List.count_eq_zero_of_not_mem hx_not
          have h := hcount x
          rw [hzero, List.count_cons_self] at h
          by_cases hxe : x = e
          · exact hxe
          · exfalso
            by_cases hxf : x = f <;>
              simp [hxe, hxf, Ne.symm hef] at h
        · simp [cpuidZipCheck, CpuidEntry.can_migrate_from_element, hxy]
      · refine ⟨x, y, hxy, .inr ?_, ?_⟩
        · have hy_not : y ∉ x :: xs := by
            intro hmem
            rcases List.mem_cons.mp hmem with h | h
            · exact hxy h.symm
            · exact hxy (IsAntisymm.antisymm _ _
                ((List.sorted_cons.mp hs).1 y h) hle)
          have hzero : (x :: xs).count y = 0 :=
            List.count_eq_zero_of_not_mem hy_not
          have h := hcount y
          rw [hzero, List.count_cons_self] at h
          by_cases hyf : y = f
          · exact hyf
          · exfalso
            by_cases hye : y = e <;>
              simp [hye, hyf, hef] at h
        · simp [cpuidZipCheck, CpuidEntry.can_migrate_from_element, hxy]

/-- C2: for every Entries CPUID list, every permutation of it is
compatible with the unpermuted list; and replacing any one entry by a
different entry (in particular, changing any single field of it) makes
the check fail with a per-entry `CpuidEntryMismatch` whose pair names the
affected entry (its old value on the left or its new value on the right).
The third conjunct is the concrete leaves-{0,1,2,3} swap scenario. -/
theorem cpuid_order_insensitivity :
    (∀ (l lp : List CpuidEntry), lp.Perm l →
      Cpuid.can_migrate_from_element (.entries lp) (.entries l) = .ok ()) ∧
    (∀ (l : List CpuidEntry) (i : Nat) (hi : i < l.length) (f : CpuidEntry),
      f ≠ l[i] →
      ∃ a b, a ≠ b ∧ (a = l[i] ∨ b = f) ∧
        Cpuid.can_migrate_from_element (.entries l)
            (.entries (l.set i f)) =
          .error (.boardsIncompatible (.cpuidEntryMismatch a b))) ∧
    (Cpuid.can_migrate_from_element
      (.entries [⟨0, none, 0, 0, 0, 0⟩, ⟨1, none, 1, 2, 3, 4⟩,
        ⟨2, some 0, 0xAAAAAAAA, 0xBBBBBBBB, 0xCCCCCCCC, 0xDDDDDDDD⟩,
        ⟨3, some 1, 7, 49, 343, 2401⟩])
      (.entries [⟨2, some 0, 0xAAAAAAAA, 0xBBBBBBBB, 0xCCCCCCCC, 0xDDDDDDDD⟩,
        ⟨3, some 1, 7, 49, 343, 2401⟩,
        ⟨0, none, 0, 0, 0, 0⟩, ⟨1, none, 1, 2, 3, 4⟩]) = .ok ()) := by
  refine ⟨?_, ?_, by decide⟩
  · intro l lp hperm
    have hlen : lp.length = l.length := hperm.length_eq
    simp only [Cpuid.can_migrate_from_element]
    rw [if_neg (by simp [hlen])]
    rw [sortEntries_eq_of_perm hperm]
    exact cpuidZipCheck_refl _
  · intro l i hi f hf
    have hlen : (l.set i f).length = l.length := List.length_set l i f
    have hcounts : ∀ z,
        (sortEntries (l.set i f)).count z + (if z = l[i] then 1 else 0) =
          (sortEntries l).count z + (if z = f then 1 else 0) := by
      intro z
      rw [(sortEntries_perm (l.set i f)).count_eq,
        (sortEntries_perm l).count_eq]
      exact count_set_eq hi f z
    obtain ⟨a, b, hab, hor, hzip⟩ :=
      zip_first_diff (Ne.symm hf) (sortEntries l) (sortEntries (l.set i f))
        (by rw [(sortEntries_perm _).length_eq,
          (sortEntries_perm _).length_eq, hlen])
        (sortEntries_sorted _) (sortEntries_sorted _) hcounts
    refine ⟨a, b, hab, hor, ?_⟩
    simp only [Cpuid.can_migrate_from_element]
    rw [if_neg (by simp [hlen])]
    exact hzip

/-- Witness for C2 at concrete inputs (both universally quantified
conjuncts). -/
theorem cpuid_order_insensitivity_witness :
    (Cpuid.can_migrate_from_element
      (.entries [⟨1, none, 5, 6, 7, 8⟩, ⟨0, none, 1, 2, 3, 4⟩])
      (.entries [⟨0, none, 1, 2, 3, 4⟩, ⟨1, none, 5, 6, 7, 8⟩]) = .ok ()) ∧
    (∃ a b, a ≠ b ∧
      (a = [(⟨0, none, 1, 2, 3, 4⟩ : CpuidEntry)][0] ∨
        b = (⟨0, none, 9, 9, 9, 9⟩ : CpuidEntry)) ∧
      Cpuid.can_migrate_from_element
          (.entries [⟨0, none, 1, 2, 3, 4⟩])
          (.entries ([(⟨0, none, 1, 2, 3, 4⟩ : CpuidEntry)].set 0
            ⟨0, none, 9, 9, 9, 9⟩)) =
        .error (.boardsIncompatible (.cpuidEntryMismatch a b))) :=
  ⟨cpuid_order_insensitivity.1 _ _ (by decide),
    cpuid_order_insensitivity.2.1 _ 0 (by decide) _ (by decide)⟩

/- ------------------------------------------------------------------ -/
/- C4: ComponentV0 dispatch policy                                    -/
/- ------------------------------------------------------------------ -/

/-- C4: `ComponentV0::can_migrate_from_element` fails with
`ComponentsIncomparable` carrying both kind names whenever the two values
are different concrete kinds; succeeds unconditionally for same-kind pairs
of the four kinds with no dedicated comparison (the fallback arm:
SoftNpuPciPort, SoftNpuPort, SoftNpuP9, P9fs); and delegates to the kind's
own comparison for the eleven kinds that have one. -/
theorem component_dispatch_policy :
    (∀ a b : ComponentV0, a.tag ≠ b.tag →
      a.can_migrate_from_element b =
        .error (.componentsIncomparable a.kind b.kind)) ∧
    ((∀ x y : SoftNpuPciPort,
      (ComponentV0.softNpuPciPort x).can_migrate_from_element
        (.softNpuPciPort y) = .ok ()) ∧
     (∀ x y : SoftNpuPort,
      (ComponentV0.softNpuPort x).can_migrate_from_element
        (.softNpuPort y) = .ok ()) ∧
     (∀ x y : SoftNpuP9,
      (ComponentV0.softNpuP9 x).can_migrate_from_element
        (.softNpuP9 y) = .ok ()) ∧
     (∀ x y : P9fs,
      (ComponentV0.p9fs x).can_migrate_from_element (.p9fs y) = .ok ())) ∧
    ((∀ x y : VirtioDisk,
      (ComponentV0.virtioDisk x).can_migrate_from_element (.virtioDisk y) =
        x.can_migrate_from_element y) ∧
     (∀ x y : NvmeDisk,
      (ComponentV0.nvmeDisk x).can_migrate_from_element (.nvmeDisk y) =
        x.can_migrate_from_element y) ∧
     (∀ x y : VirtioNic,
      (ComponentV0.virtioNic x).can_migrate_from_element (.virtioNic y) =
        x.can_migrate_from_element y) ∧
     (∀ x y : SerialPort,
      (ComponentV0.serialPort x).can_migrate_from_element (.serialPort y) =
        x.can_migrate_from_element y) ∧
     (∀ x y : PciPciBridge,
      (ComponentV0.pciPciBridge x).can_migrate_from_element
        (.pciPciBridge y) = x.can_migrate_from_element y) ∧
     (∀ x y : QemuPvpanic,
      (ComponentV0.qemuPvpanic x).can_migrate_from_element
        (.qemuPvpanic y) = x.can_migrate_from_element y) ∧
     (∀ x y : CrucibleStorageBackend,
      (ComponentV0.crucibleBackend x).can_migrate_from_element
        (.crucibleBackend y) = x.can_migrate_from_element y) ∧
     (∀ x y : FileStorageBackend,
      (ComponentV0.fileStorageBackend x).can_migrate_from_element
        (.fileStorageBackend y) = x.can_migrate_from_element y) ∧
     (∀ x y : BlobStorageBackend,
      (ComponentV0.blobStorageBackend x).can_migrate_from_element
        (.blobStorageBackend y) = x.can_migrate_from_element y) ∧
     (∀ x y : VirtioNetworkBackend,
      (ComponentV0.vionaBackend x).can_migrate_from_element
        (.vionaBackend y) = x.can_migrate_from_element y) ∧
     (∀ x y : DlpiNetworkBackend,
      (ComponentV0.dlpiBackend x).can_migrate_from_element
        (.dlpiBackend y) = x.can_migrate_from_element y)) := by
  refine ⟨?_, ⟨?_, ?_, ?_, ?_⟩,
    ⟨?_, ?_, ?_, ?_, ?_, ?_, ?_, ?_, ?_, ?_, ?_⟩⟩
  · intro a b h
    cases a <;> cases b <;>
      first
      | exact absurd rfl h
      | rfl
  all_goals intro x y
  all_goals rfl

/-- Witness for C4: two different concrete kinds at concrete values. -/
theorem component_dispatch_policy_witness :
    (ComponentV0.serialPort ⟨(1 : Nat)⟩).can_migrate_from_element
        (.qemuPvpanic ⟨true⟩) =
      .error (.componentsIncomparable "SerialPort" "QemuPvpanic") :=
  component_dispatch_policy.1 _ _ (by decide)

/- ------------------------------------------------------------------ -/
/- C5, C6: spec-level collection comparison and reflexivity           -/
/- ------------------------------------------------------------------ -/

theorem alookup_isSome_of_mem {α : Type} {k : String} {v : α}
    {l : List (String × α)} (h : (k, v) ∈ l) : (alookup k l).isSome := by
  induction l with
  | nil => simp at h
  | cons p rest ih =>
    obtain ⟨k', v'⟩ := p
    by_cases hk : k' = k
    · simp [alookup, hk]
    · rcases List.mem_cons.mp h with h | h
      · exact absurd (congrArg Prod.fst h).symm hk
      · simpa [alookup, hk] using ih h

theorem checkKeysPresent_error {target l : List (String × ComponentV0)}
    {err : CollectionCompatibilityError}
    (h : checkKeysPresent target l = .error err) :
    ∃ k, err = .missingComponent k ∧ (alookup k l).isSome ∧
      alookup k target = none := by
  induction l with
  | nil => simp [checkKeysPresent] at h
  | cons p rest ih =>
    obtain ⟨k, v⟩ := p
    by_cases hk : (alookup k target).isSome
    · rw [checkKeysPresent, if_pos hk] at h
      obtain ⟨k0, he, hs, hn⟩ := ih h
      refine ⟨k0, he, ?_, hn⟩
      by_cases hkk : k = k0 <;> simp [alookup, hkk, hs]
    · rw [checkKeysPresent, if_neg hk] at h
      injection h with h1
      exact ⟨k, h1.symm, by simp [alookup],
        by simpa [Option.not_isSome_iff_eq_none] using hk⟩

theorem checkKeysPresent_ok {target l : List (String × ComponentV0)}
    (h : checkKeysPresent target l = .ok ()) :
    ∀ k, (alookup k l).isSome → (alookup k target).isSome := by
  induction l with
  | nil => simp [alookup]
  | cons p rest ih =>
    obtain ⟨k', v'⟩ := p
    by_cases hk : (alookup k' target).isSome
    · rw [checkKeysPresent, if_pos hk] at h
      intro k hs
      by_cases hkk : k' = k
      · exact hkk ▸ hk
      · exact ih h k (by simpa [alookup, hkk] using hs)
    · rw [checkKeysPresent, if_neg hk] at h
      simp at h

theorem checkElements_error {other l : List (String × ComponentV0)}
    {err : CollectionCompatibilityError}
    (h : checkElements other l = .error err) :
    ∃ k e v w, err = .elementMismatch k e ∧ (k, v) ∈ l ∧
      alookup k other = some w ∧
      v.can_migrate_from_element w = .error e := by
  induction l with
  | nil => simp [checkElements] at h
  | cons p rest ih =>
    obtain ⟨k, v⟩ := p
    rw [checkElements] at h
    split at h
    · obtain ⟨k0, e0, v0, w0, he, hm, hlk, hc⟩ := ih h
      exact ⟨k0, e0, v0, w0, he, List.mem_cons_of_mem _ hm, hlk, hc⟩
    · next w hl =>
      split at h
      · next e0 hc =>
        injection h with h1
        exact ⟨k, e0, v, w, h1.symm, List.mem_cons_self _ _, hl, hc⟩
      · next u hc =>
        obtain ⟨k0, e0, v0, w0, he, hm, hlk, hc0⟩ := ih h
        exact ⟨k0, e0, v0, w0, he, List.mem_cons_of_mem _ hm, hlk, hc0⟩

/-- C5: if, with compatible boards, some component key is present on one
side only (either direction), `can_migrate_from` fails with a
`"components"`-tagged error identifying such a key; for keys present in
both, a propagated element error tagged with `"components"` and a key
always comes from the element check of that key's pair; and a failing
board check short-circuits everything, producing the `"board"`-tagged
element error. -/
theorem spec_check_key_diffs :
    (∀ a b : InstanceSpecV0, ∀ e,
      a.board.can_migrate_from_element b.board = .error e →
      a.can_migrate_from b = .error (.elementMismatch "board" e)) ∧
    (∀ a b : InstanceSpecV0,
      a.board.can_migrate_from_element b.board = .ok () →
      (∃ k, ((alookup k a.components).isSome ∧
              (alookup k b.components).isNone) ∨
            ((alookup k b.components).isSome ∧
              (alookup k a.components).isNone)) →
      ∃ k', (((alookup k' a.components).isSome ∧
               (alookup k' b.components).isNone) ∨
             ((alookup k' b.components).isSome ∧
               (alookup k' a.components).isNone)) ∧
        a.can_migrate_from b =
          .error (.collectionMismatch "components" (.missingComponent k'))) ∧
    (∀ a b : InstanceSpecV0, ∀ k e,
      a.can_migrate_from b =
        .error (.collectionMismatch "components" (.elementMismatch k e)) →
      ∃ v w, (k, v) ∈ a.components ∧ alookup k b.components = some w ∧
        v.can_migrate_from_element w = .error e) := by
  refine ⟨?_, ?_, ?_⟩
  · intro a b e h
    simp [InstanceSpecV0.can_migrate_from, h]
  · intro a b hboard ⟨k, hk⟩
    rcases hsel : checkKeysPresent b.components a.components with e | u
    · obtain ⟨k', he, hs, hn⟩ := checkKeysPresent_error hsel
      refine ⟨k', .inl ⟨hs, by simp [hn]⟩, ?_⟩
      subst he
      simp [InstanceSpecV0.can_migrate_from, hboard,
        can_migrate_from_collection, hsel]
    · rcases hoth : checkKeysPresent a.components b.components with e | u'
      · obtain ⟨k', he, hs, hn⟩ := checkKeysPresent_error hoth
        refine ⟨k', .inr ⟨hs, by simp [hn]⟩, ?_⟩
        subst he
        simp [InstanceSpecV0.can_migrate_from, hboard,
          can_migrate_from_collection, hsel, hoth]
      · exfalso
        rcases hk with ⟨hs, hn⟩ | ⟨hs, hn⟩
        · have := checkKeysPresent_ok hsel k hs
          simp [Option.isNone_iff_eq_none.mp hn] at this
        · have := checkKeysPresent_ok hoth k hs
          simp [Option.isNone_iff_eq_none.mp hn] at this
  · intro a b k e h
    rw [InstanceSpecV0.can_migrate_from] at h
    split at h
    · simp at h
    · split at h
      · next ce hcoll =>
        injection h with h1
        injection h1 with h2 h3
        subst h3
        rw [can_migrate_from_collection] at hcoll
        split at hcoll
        · next e1 hk1 =>
          injection hcoll with h4
          obtain ⟨k0, heq, _, _⟩ := checkKeysPresent_error hk1
          simp_all
        · split at hcoll
          · next e1 hk2 =>
            injection hcoll with h4
            obtain ⟨k0, heq, _, _⟩ := checkKeysPresent_error hk2
            simp_all
          · obtain ⟨k0, e0, v0, w0, heq, hm, hlk, hc⟩ :=
              checkElements_error hcoll
            injection heq with hk0 he0
            subst hk0
            subst he0
            exact ⟨v0, w0, hm, hlk, hc⟩
      · simp at h

/-- Witness for C5 at a concrete pair of specs (second conjunct). -/
theorem spec_check_key_diffs_witness :
    ∃ k', (((alookup k'
        [("x", ComponentV0.qemuPvpanic ⟨true⟩)]).isSome ∧
        (alookup k' ([] : List (String × ComponentV0))).isNone) ∨
       ((alookup k' ([] : List (String × ComponentV0))).isSome ∧
        (alookup k' [("x", ComponentV0.qemuPvpanic ⟨true⟩)]).isNone)) ∧
      InstanceSpecV0.can_migrate_from
          ⟨⟨1, 512, .i440Fx ⟨false⟩, .bhyveDefault⟩,
            [("x", .qemuPvpanic ⟨true⟩)]⟩
          ⟨⟨1, 512, .i440Fx ⟨false⟩, .bhyveDefault⟩, []⟩ =
        .error (.collectionMismatch "components" (.missingComponent k')) :=
  spec_check_key_diffs.2.1
    ⟨⟨1, 512, .i440Fx ⟨false⟩, .bhyveDefault⟩, [("x", .qemuPvpanic ⟨true⟩)]⟩
    ⟨⟨1, 512, .i440Fx ⟨false⟩, .bhyveDefault⟩, []⟩
    (by decide) ⟨"x", .inl (by decide)⟩

theorem component_refl (v : ComponentV0) :
    v.can_migrate_from_element v = .ok () := by
  cases v <;>
    simp [ComponentV0.can_migrate_from_element,
      VirtioDisk.can_migrate_from_element, NvmeDisk.can_migrate_from_element,
      VirtioNic.can_migrate_from_element, SerialPort.can_migrate_from_element,
      PciPciBridge.can_migrate_from_element,
      QemuPvpanic.can_migrate_from_element,
      CrucibleStorageBackend.can_migrate_from_element,
      FileStorageBackend.can_migrate_from_element,
      BlobStorageBackend.can_migrate_from_element,
      VirtioNetworkBackend.can_migrate_from_element,
      DlpiNetworkBackend.can_migrate_from_element]

theorem cpuid_refl (c : Cpuid) : c.can_migrate_from_element c = .ok () := by
  cases c with
  | bhyveDefault => rfl
  | entries l =>
    simp [Cpuid.can_migrate_from_element, cpuidZipCheck_refl]

theorem board_refl (b : Board) : b.can_migrate_from_element b = .ok () := by
  rcases b with ⟨c, m, ⟨⟨p⟩⟩, q⟩
  simp [Board.can_migrate_from_element, Chipset.can_migrate_from_element,
    I440Fx.can_migrate_from_element, cpuid_refl]

theorem checkKeysPresent_ok_of {t l : List (String × ComponentV0)}
    (h : ∀ k v, (k, v) ∈ l → (alookup k t).isSome) :
    checkKeysPresent t l = .ok () := by
  induction l with
  | nil => rfl
  | cons p rest ih =>
    obtain ⟨k, v⟩ := p
    rw [checkKeysPresent, if_pos (h k v (List.mem_cons_self _ _))]
    exact ih fun k' v' hm => h k' v' (List.mem_cons_of_mem _ hm)

theorem checkElements_ok_of {t l : List (String × ComponentV0)}
    (h : ∀ k v, (k, v) ∈ l → alookup k t = some v) :
    checkElements t l = .ok () := by
  induction l with
  | nil => rfl
  | cons p rest ih =>
    obtain ⟨k, v⟩ := p
    rw [checkElements, h k v (List.mem_cons_self _ _)]
    simp only [component_refl]
    exact ih fun k' v' hm => h k' v' (List.mem_cons_of_mem _ hm)

theorem alookup_eq_of_mem_nodup {k : String} {v : ComponentV0}
    {l : List (String × ComponentV0)} (hm : (k, v) ∈ l)
    (hnd : (l.map Prod.fst).Nodup) : alookup k l = some v := by
  induction l with
  | nil => simp at hm
  | cons p rest ih =>
    obtain ⟨k', v'⟩ := p
    rcases List.mem_cons.mp hm with h | h
    · obtain ⟨h1, h2⟩ := Prod.mk.injEq .. ▸ h.symm
      simp [alookup, h1, h2, h.symm]
    · by_cases hk : k' = k
      · exfalso
        subst hk
        have : k' ∈ rest.map Prod.fst :=
          List.mem_map.mpr ⟨(k', v), h, rfl⟩
        exact (List.nodup_cons.mp hnd).1 this
      · simpa [alookup, hk] using ih h (List.nodup_cons.mp hnd).2

/-- C6: migration compatibility is reflexive — every spec (its key set
being duplicate-free, as a map's keys are) is compatible with an
identical clone of itself. -/
theorem can_migrate_from_refl (s : InstanceSpecV0)
    (hnd : (s.components.map Prod.fst).Nodup) :
    s.can_migrate_from s = .ok () := by
  rw [InstanceSpecV0.can_migrate_from, board_refl]
  have hkeys : checkKeysPresent s.components s.components = .ok () :=
    checkKeysPresent_ok_of fun k v hm => alookup_isSome_of_mem hm
  have helems : checkElements s.components s.components = .ok () :=
    checkElements_ok_of fun k v hm => alookup_eq_of_mem_nodup hm hnd
  rw [can_migrate_from_collection, hkeys, helems]

/-- Witness for C6 at a concrete spec. -/
theorem can_migrate_from_refl_witness :
    InstanceSpecV0.can_migrate_from
        ⟨⟨2, 2048, .i440Fx ⟨true⟩, .entries [⟨0, none, 1, 2, 3, 4⟩]⟩,
          [("disk", .virtioDisk ⟨"be", ⟨0, 4, 0⟩⟩),
           ("be", .crucibleBackend ⟨"req", false⟩)]⟩
        ⟨⟨2, 2048, .i440Fx ⟨true⟩, .entries [⟨0, none, 1, 2, 3, 4⟩]⟩,
          [("disk", .virtioDisk ⟨"be", ⟨0, 4, 0⟩⟩),
           ("be", .crucibleBackend ⟨"req", false⟩)]⟩ = .ok () :=
  can_migrate_from_refl _ (by decide)

/- ------------------------------------------------------------------ -/
/- C9: wire-builder uniqueness and failure atomicity                  -/
/- ------------------------------------------------------------------ -/

/-- C9: `SpecBuilder::add_component` fails with `NameInUse` when the name
is taken, with `PciPathInUse` when (the name being fresh) the component's
PCI path is already claimed, and with `SerialPortInUse` when (the name
being fresh) a serial port's number is already claimed; and every failing
call leaves the builder state exactly as it was. (The client-library
builder in instance_spec.rs implements the identical logic.) -/
theorem add_component_uniqueness :
    (∀ (b : SpecBuilder) (name : String) (c : ComponentV0),
      (alookup name b.spec.components).isSome →
      b.add_component name c = (b, some (.nameInUse name))) ∧
    (∀ (b : SpecBuilder) (name : String) (c : ComponentV0) (p : PciPath),
      (alookup name b.spec.components).isSome = false →
      c.pci_path = some p → p ∈ b.pci_paths →
      b.add_component name c = (b, some (.pciPathInUse p))) ∧
    (∀ (b : SpecBuilder) (name : String) (s : SerialPort),
      (alookup name b.spec.components).isSome = false →
      s.num ∈ b.serial_ports →
      b.add_component name (.serialPort s) =
        (b, some (.serialPortInUse s.num))) ∧
    (∀ (b : SpecBuilder) (name : String) (c : ComponentV0)
        (b' : SpecBuilder) (e : SpecBuilderError),
      b.add_component name c = (b', some e) → b' = b) := by
  refine ⟨?_, ?_, ?_, ?_⟩
  · intro b name c h
    simp [SpecBuilder.add_component, h]
  · intro b name c p hn hp hmem
    simp [SpecBuilder.add_component, hn, hp, hmem]
  · intro b name s hn hmem
    simp [SpecBuilder.add_component, hn, ComponentV0.pci_path, hmem]
  · intro b name c b' e h
    delta SpecBuilder.add_component at h
    by_cases hn : (alookup name b.spec.components).isSome
    · rw [if_pos hn] at h
      exact (Prod.mk.injEq .. ▸ h).1.symm
    · rw [if_neg hn] at h
      split at h
      · rename_i p hp
        by_cases hmem : p ∈ b.pci_paths
        · rw [if_pos hmem] at h
          exact (Prod.mk.injEq .. ▸ h).1.symm
        · rw [if_neg hmem] at h
          simp at h
      · split at h
        · rename_i port heqpc
          by_cases hmem : port.num ∈ b.serial_ports
          · rw [if_pos hmem] at h
            exact (Prod.mk.injEq .. ▸ h).1.symm
          · rw [if_neg hmem] at h
            simp at h
        · simp at h

/-- Witness for C9 at concrete builder states (all three error kinds). -/
theorem add_component_uniqueness_witness :
    (SpecBuilder.add_component
        ⟨⟨⟨1, 64, .i440Fx ⟨false⟩, .bhyveDefault⟩,
          [("a", .qemuPvpanic ⟨true⟩)]⟩, [], []⟩
        "a" (.qemuPvpanic ⟨false⟩) =
      (⟨⟨⟨1, 64, .i440Fx ⟨false⟩, .bhyveDefault⟩,
        [("a", .qemuPvpanic ⟨true⟩)]⟩, [], []⟩,
        some (.nameInUse "a"))) ∧
    (SpecBuilder.add_component
        ⟨⟨⟨1, 64, .i440Fx ⟨false⟩, .bhyveDefault⟩,
          [("a", .pciPciBridge ⟨⟨0, 1, 0⟩⟩)]⟩, [], [⟨0, 1, 0⟩]⟩
        "b" (.virtioDisk ⟨"be", ⟨0, 1, 0⟩⟩) =
      (⟨⟨⟨1, 64, .i440Fx ⟨false⟩, .bhyveDefault⟩,
        [("a", .pciPciBridge ⟨⟨0, 1, 0⟩⟩)]⟩, [], [⟨0, 1, 0⟩]⟩,
        some (.pciPathInUse ⟨0, 1, 0⟩))) ∧
    (SpecBuilder.add_component
        ⟨⟨⟨1, 64, .i440Fx ⟨false⟩, .bhyveDefault⟩,
          [("a", .serialPort ⟨(0 : Nat)⟩)]⟩, [(0 : Nat)], []⟩
        "b" (.serialPort ⟨(0 : Nat)⟩) =
      (⟨⟨⟨1, 64, .i440Fx ⟨false⟩, .bhyveDefault⟩,
        [("a", .serialPort ⟨(0 : Nat)⟩)]⟩, [(0 : Nat)], []⟩,
        some (.serialPortInUse (0 : Nat)))) :=
  ⟨add_component_uniqueness.1 _ _ _ (by decide),
   add_component_uniqueness.2.1 _ _ _ _ (by decide) (by decide) (by decide),
   add_component_uniqueness.2.2.1 _ _ _ (by decide) (by decide)⟩

/- ------------------------------------------------------------------ -/
/- C7, C8, C10: wire <-> grouped conversion accounting                -/
/- ------------------------------------------------------------------ -/

/-- The storage-backend bucket viewed as wire components. -/
def sbComponents (l : List (String × StorageBackend)) :
    List (String × ComponentV0) :=
  l.map fun p => (p.1, p.2.into)

/-- The viona-backend bucket viewed as wire components. -/
def vbComponents (l : List (String × VirtioNetworkBackend)) :
    List (String × ComponentV0) :=
  l.map fun p => (p.1, .vionaBackend p.2)

/-- The DLPI-backend bucket viewed as wire components. -/
def dbComponents (l : List (String × DlpiNetworkBackend)) :
    List (String × ComponentV0) :=
  l.map fun p => (p.1, .dlpiBackend p.2)

/-- The device bucket viewed as wire components. -/
def devComponents (l : List (String × DeviceComponent)) :
    List (String × ComponentV0) :=
  l.map fun p => (p.1, p.2.into)

/-- All wire components accounted for by a conversion state: what the
grouped spec built so far re-emits, plus the unconsumed backends. -/
def stateComponents (st : ConvState) : List (String × ComponentV0) :=
  emitComponents st.builder.spec ++ sbComponents st.storage_backends ++
    vbComponents st.viona_backends ++ dbComponents st.dlpi_backends

/-- The first pass of wire-to-grouped conversion is a partition: the four
buckets jointly account for every wire component. -/
theorem partition_accounts (comps : List (String × ComponentV0)) :
    (↑(devComponents (partitionComponents comps).devices) +
      ↑(sbComponents (partitionComponents comps).storage_backends) +
      ↑(vbComponents (partitionComponents comps).viona_backends) +
      ↑(dbComponents (partitionComponents comps).dlpi_backends) :
        Multiset (String × ComponentV0)) = ↑comps := by
  induction comps with
  | nil => rfl
  | cons p rest ih =>
    obtain ⟨n, c⟩ := p
    cases c <;>
      simp only [partitionComponents, devComponents, sbComponents,
        vbComponents, dbComponents, List.map_cons, StorageBackend.into,
        DeviceComponent.into, ← Multiset.cons_coe, Multiset.cons_add,
        Multiset.add_cons] <;>
      rw [← ih] <;>
      simp only [devComponents, sbComponents, vbComponents, dbComponents] <;>
      abel

/-- Removing an entry splits the association list's multiset. -/
theorem removeEntry_some {α : Type} {k : String} {v : α}
    {l rest : List (String × α)} (h : removeEntry k l = some (v, rest)) :
    (↑l : Multiset (String × α)) = (k, v) ::ₘ ↑rest := by
  induction l generalizing rest with
  | nil => simp [removeEntry] at h
  | cons p t ih =>
    obtain ⟨k', v'⟩ := p
    by_cases hk : k' = k
    · rw [removeEntry, if_pos hk] at h
      injection h with h1
      obtain ⟨h2, h3⟩ := Prod.mk.injEq .. ▸ h1
      subst hk h2 h3
      rfl
    · rw [removeEntry, if_neg hk] at h
      rcases hrec : removeEntry k t with _ | ⟨w, t'⟩
      · rw [hrec] at h
        simp at h
      · rw [hrec] at h
        injection h with h1
        obtain ⟨h2, h3⟩ := Prod.mk.injEq .. ▸ h1
        subst h2 h3
        have := ih hrec
        simp only [← Multiset.cons_coe, this, Multiset.cons_swap]

theorem removeEntry_none {α : Type} {k : String} {l : List (String × α)} :
    removeEntry k l = none ↔ alookup k l = none := by
  induction l with
  | nil => simp [removeEntry, alookup]
  | cons p t ih =>
    obtain ⟨k', v'⟩ := p
    by_cases hk : k' = k
    · simp [removeEntry, alookup, hk]
    · simp only [removeEntry, alookup, if_neg hk]
      rcases hrec : removeEntry k t with _ | ⟨w, t'⟩ <;>
        simp_all

theorem takeName_ok {b b2 : ServerSpecBuilder} {n : String}
    (h : b.takeName n = .ok b2) :
    b2 = { b with names := n :: b.names } ∧ n ∉ b.names := by
  rw [ServerSpecBuilder.takeName] at h
  by_cases hn : n ∈ b.names
  · rw [if_pos hn] at h
    simp at h
  · rw [if_neg hn] at h
    injection h with h1
    exact ⟨h1.symm, hn⟩

theorem takePciPath_ok {b b2 : ServerSpecBuilder} {p : PciPath}
    (h : b.takePciPath p = .ok b2) :
    b2 = { b with pci_paths := p :: b.pci_paths } := by
  rw [ServerSpecBuilder.takePciPath] at h
  by_cases hp : p ∈ b.pci_paths
  · rw [if_pos hp] at h
    simp at h
  · rw [if_neg hp] at h
    injection h with h1
    exact h1.symm

theorem add_storage_device_ok {b b2 : ServerSpecBuilder} {n : String}
    {d : Disk} (h : b.add_storage_device n d = .ok b2) :
    b2.spec = { b.spec with disks := b.spec.disks ++ [(n, d)] } := by
  rw [ServerSpecBuilder.add_storage_device] at h
  rcases h1 : b.takeName n with e | ba
  · rw [h1] at h
    simp [bind, Except.bind] at h
  · rw [h1] at h
    simp only [bind, Except.bind] at h
    rcases h2 : ba.takeName d.device_spec.backend_name with e | bb
    · rw [h2] at h
      simp at h
    · rw [h2] at h
      dsimp only at h
      rcases h3 : bb.takePciPath d.device_spec.pci_path with e | bc
      · rw [h3] at h
        simp at h
      · rw [h3] at h
        injection h with h4
        subst h4
        obtain ⟨hb1, _⟩ := takeName_ok h1
        obtain ⟨hb2, _⟩ := takeName_ok h2
        have hb3 := takePciPath_ok h3
        subst hb1 hb2 hb3
        rfl

theorem add_network_device_ok {b b2 : ServerSpecBuilder} {n : String}
    {nic : Nic} (h : b.add_network_device n nic = .ok b2) :
    b2.spec = { b.spec with nics := b.spec.nics ++ [(n, nic)] } := by
  rw [ServerSpecBuilder.add_network_device] at h
  rcases h1 : b.takeName n with e | ba
  · rw [h1] at h
    simp [bind, Except.bind] at h
  · rw [h1] at h
    simp only [bind, Except.bind] at h
    rcases h2 : ba.takeName nic.device_spec.backend_name with e | bb
    · rw [h2] at h
      simp at h
    · rw [h2] at h
      dsimp only at h
      rcases h3 : bb.takePciPath nic.device_spec.pci_path with e | bc
      · rw [h3] at h
        simp at h
      · rw [h3] at h
        injection h with h4
        subst h4
        obtain ⟨hb1, _⟩ := takeName_ok h1
        obtain ⟨hb2, _⟩ := takeName_ok h2
        have hb3 := takePciPath_ok h3
        subst hb1 hb2 hb3
        rfl

theorem add_serial_port_ok {b b2 : ServerSpecBuilder} {n : String}
    {num : SerialPortNumber} (h : b.add_serial_port n num = .ok b2) :
    b2.spec =
      { b.spec with serial := b.spec.serial ++ [(n, ⟨num, .standard⟩)] } := by
  rw [ServerSpecBuilder.add_serial_port] at h
  rcases h1 : b.takeName n with e | ba
  · rw [h1] at h
    simp [bind, Except.bind] at h
  · rw [h1] at h
    simp only [bind, Except.bind] at h
    by_cases hs : num ∈ ba.serial_ports
    · rw [if_pos hs] at h
      simp at h
    · rw [if_neg hs] at h
      injection h with h4
      subst h4
      obtain ⟨hb1, _⟩ := takeName_ok h1
      subst hb1
      rfl

theorem add_pci_bridge_ok {b b2 : ServerSpecBuilder} {n : String}
    {bridge : PciPciBridge} (h : b.add_pci_bridge n bridge = .ok b2) :
    b2.spec =
      { b.spec with
        pci_pci_bridges := b.spec.pci_pci_bridges ++ [(n, bridge)] } := by
  rw [ServerSpecBuilder.add_pci_bridge] at h
  rcases h1 : b.takeName n with e | ba
  · rw [h1] at h
    simp [bind, Except.bind] at h
  · rw [h1] at h
    simp only [bind, Except.bind] at h
    rcases h3 : ba.takePciPath bridge.pci_path with e | bc
    · rw [h3] at h
      simp at h
    · rw [h3] at h
      injection h with h4
      subst h4
      obtain ⟨hb1, _⟩ := takeName_ok h1
      have hb3 := takePciPath_ok h3
      subst hb1 hb3
      rfl

theorem add_pvpanic_device_ok {b b2 : ServerSpecBuilder}
    {dev : PvpanicEntry} (h : b.add_pvpanic_device dev = .ok b2) :
    b.spec.pvpanic = none ∧
      b2.spec = { b.spec with pvpanic := some dev } := by
  rw [ServerSpecBuilder.add_pvpanic_device] at h
  rcases h1 : b.takeName dev.name with e | ba
  · rw [h1] at h
    simp [bind, Except.bind] at h
  · rw [h1] at h
    simp only [bind, Except.bind] at h
    obtain ⟨hb1, _⟩ := takeName_ok h1
    subst hb1
    rcases hp : b.spec.pvpanic with _ | old
    · rw [hp] at h
      injection h with h4
      subst h4
      exact ⟨rfl, rfl⟩
    · rw [hp] at h
      simp at h

theorem emit_add_disk (s : Spec) (n : String) (d : Disk) :
    (↑(emitComponents { s with disks := s.disks ++ [(n, d)] }) :
      Multiset (String × ComponentV0)) =
      ↑(emitComponents s) +
        ↑[(n, d.device_spec.into),
          (d.device_spec.backend_name, d.backend_spec.into)] := by
  simp only [emitComponents, List.flatMap_append, List.flatMap_cons,
    List.flatMap_nil, List.append_nil, ← Multiset.coe_add]
  abel

theorem emit_add_nic (s : Spec) (n : String) (nic : Nic) :
    (↑(emitComponents { s with nics := s.nics ++ [(n, nic)] }) :
      Multiset (String × ComponentV0)) =
      ↑(emitComponents s) +
        ↑[(n, ComponentV0.virtioNic nic.device_spec),
          (nic.device_spec.backend_name,
            ComponentV0.vionaBackend nic.backend_spec)] := by
  simp only [emitComponents, List.flatMap_append, List.flatMap_cons,
    List.flatMap_nil, List.append_nil, ← Multiset.coe_add]
  abel

theorem emit_add_serial (s : Spec) (n : String) (num : SerialPortNumber) :
    (↑(emitComponents
        { s with serial := s.serial ++ [(n, ⟨num, .standard⟩)] }) :
      Multiset (String × ComponentV0)) =
      ↑(emitComponents s) + ↑[(n, ComponentV0.serialPort ⟨num⟩)] := by
  simp only [emitComponents, List.filterMap_append, List.filterMap_cons,
    List.filterMap_nil, ← Multiset.coe_add]
  simp only [reduceIte]
  abel

theorem emit_add_bridge (s : Spec) (n : String) (bridge : PciPciBridge) :
    (↑(emitComponents
        { s with pci_pci_bridges := s.pci_pci_bridges ++ [(n, bridge)] }) :
      Multiset (String × ComponentV0)) =
      ↑(emitComponents s) + ↑[(n, ComponentV0.pciPciBridge bridge)] := by
  simp only [emitComponents, List.map_append, List.map_cons, List.map_nil,
    ← Multiset.coe_add]
  abel

theorem emit_set_pvpanic (s : Spec) (dev : PvpanicEntry)
    (hp : s.pvpanic = none) :
    (↑(emitComponents { s with pvpanic := some dev }) :
      Multiset (String × ComponentV0)) =
      ↑(emitComponents s) + ↑[(dev.name, ComponentV0.qemuPvpanic dev.spec)] := by
  simp only [emitComponents, hp, ← Multiset.coe_add]
  abel

theorem removeEntry_sb {k : String} {bspec : StorageBackend}
    {l rest : List (String × StorageBackend)}
    (h : removeEntry k l = some (bspec, rest)) :
    (↑(sbComponents l) : Multiset (String × ComponentV0)) =
      (k, bspec.into) ::ₘ ↑(sbComponents rest) := by
  have hm := removeEntry_some h
  have hmap : (↑(sbComponents l) : Multiset (String × ComponentV0)) =
      Multiset.map (fun p => (p.1, p.2.into))
        (↑l : Multiset (String × StorageBackend)) := by
    simp [sbComponents, Multiset.map_coe]
  rw [hmap, hm]
  simp [sbComponents, Multiset.map_coe]

theorem removeEntry_vb {k : String} {bspec : VirtioNetworkBackend}
    {l rest : List (String × VirtioNetworkBackend)}
    (h : removeEntry k l = some (bspec, rest)) :
    (↑(vbComponents l) : Multiset (String × ComponentV0)) =
      (k, .vionaBackend bspec) ::ₘ ↑(vbComponents rest) := by
  have hm := removeEntry_some h
  have hmap : (↑(vbComponents l) : Multiset (String × ComponentV0)) =
      Multiset.map (fun p => (p.1, ComponentV0.vionaBackend p.2))
        (↑l : Multiset (String × VirtioNetworkBackend)) := by
    simp [vbComponents, Multiset.map_coe]
  rw [hmap, hm]
  simp [vbComponents, Multiset.map_coe]

theorem processDevice_ok_accounts {st st2 : ConvState} {n : String}
    {d : DeviceComponent} (h : processDevice st n d = .ok st2) :
    (↑(stateComponents st2) : Multiset (String × ComponentV0)) =
      ↑(stateComponents st) + ↑[(n, d.into)] ∧
    st2.builder.spec.board = st.builder.spec.board := by
  cases d with
  | virtioDisk dd =>
    rw [processDevice] at h
    rcases hre : removeEntry dd.backend_name st.storage_backends with
      _ | ⟨bspec, rest⟩
    · rw [hre] at h
      simp at h
    · rw [hre] at h
      dsimp only at h
      rcases hadd : st.builder.add_storage_device n ⟨.virtioDisk dd, bspec⟩
        with e | b2
      · rw [hadd] at h
        simp [bind, Except.bind] at h
      · rw [hadd] at h
        simp only [bind, Except.bind] at h
        injection h with h1
        subst h1
        have hspec := add_storage_device_ok hadd
        constructor
        · simp only [stateComponents, hspec, ← Multiset.coe_add,
            emit_add_disk, removeEntry_sb hre, DeviceComponent.into]
          simp only [StorageDevice.into, StorageDevice.backend_name,
            ← Multiset.cons_coe, Multiset.coe_nil, ← Multiset.singleton_add]
          abel
        · rw [hspec]
  | nvmeDisk dd =>
    rw [processDevice] at h
    rcases hre : removeEntry dd.backend_name st.storage_backends with
      _ | ⟨bspec, rest⟩
    · rw [hre] at h
      simp at h
    · rw [hre] at h
      dsimp only at h
      rcases hadd : st.builder.add_storage_device n ⟨.nvmeDisk dd, bspec⟩
        with e | b2
      · rw [hadd] at h
        simp [bind, Except.bind] at h
      · rw [hadd] at h
        simp only [bind, Except.bind] at h
        injection h with h1
        subst h1
        have hspec := add_storage_device_ok hadd
        constructor
        · simp only [stateComponents, hspec, ← Multiset.coe_add,
            emit_add_disk, removeEntry_sb hre, DeviceComponent.into]
          simp only [StorageDevice.into, StorageDevice.backend_name,
            ← Multiset.cons_coe, Multiset.coe_nil, ← Multiset.singleton_add]
          abel
        · rw [hspec]
  | virtioNic nic =>
    rw [processDevice] at h
    rcases hre : removeEntry nic.backend_name st.viona_backends with
      _ | ⟨bspec, rest⟩
    · rw [hre] at h
      simp at h
    · rw [hre] at h
      dsimp only at h
      rcases hadd : st.builder.add_network_device n ⟨nic, bspec⟩ with e | b2
      · rw [hadd] at h
        simp [bind, Except.bind] at h
      · rw [hadd] at h
        simp only [bind, Except.bind] at h
        injection h with h1
        subst h1
        have hspec := add_network_device_ok hadd
        constructor
        · simp only [stateComponents, hspec, ← Multiset.coe_add,
            emit_add_nic, removeEntry_vb hre, DeviceComponent.into]
          simp only [← Multiset.cons_coe, Multiset.coe_nil,
            ← Multiset.singleton_add]
          abel
        · rw [hspec]
  | serialPort sp =>
    rw [processDevice] at h
    rcases hadd : st.builder.add_serial_port n sp.num with e | b2
    · rw [hadd] at h
      simp [bind, Except.bind] at h
    · rw [hadd] at h
      simp only [bind, Except.bind] at h
      injection h with h1
      subst h1
      have hspec := add_serial_port_ok hadd
      constructor
      · simp only [stateComponents, hspec, ← Multiset.coe_add,
          emit_add_serial, DeviceComponent.into]
        simp only [← Multiset.cons_coe, Multiset.coe_nil,
          ← Multiset.singleton_add]
        abel
      · rw [hspec]
  | pciPciBridge bridge =>
    rw [processDevice] at h
    rcases hadd : st.builder.add_pci_bridge n bridge with e | b2
    · rw [hadd] at h
      simp [bind, Except.bind] at h
    · rw [hadd] at h
      simp only [bind, Except.bind] at h
      injection h with h1
      subst h1
      have hspec := add_pci_bridge_ok hadd
      constructor
      · simp only [stateComponents, hspec, ← Multiset.coe_add,
          emit_add_bridge, DeviceComponent.into]
        simp only [← Multiset.cons_coe, Multiset.coe_nil,
          ← Multiset.singleton_add]
        abel
      · rw [hspec]
  | qemuPvpanic q =>
    rw [processDevice] at h
    rcases hadd : st.builder.add_pvpanic_device ⟨n, q⟩ with e | b2
    · rw [hadd] at h
      simp [bind, Except.bind] at h
    · rw [hadd] at h
      simp only [bind, Except.bind] at h
      injection h with h1
      subst h1
      obtain ⟨hnone, hspec⟩ := add_pvpanic_device_ok hadd
      constructor
      · simp only [stateComponents, hspec, ← Multiset.coe_add,
          emit_set_pvpanic _ _ hnone, DeviceComponent.into]
        simp only [← Multiset.cons_coe, Multiset.coe_nil,
          ← Multiset.singleton_add]
        abel
      · rw [hspec]
  | softNpuPciPort p =>
    rw [processDevice] at h
    simp at h
  | softNpuPort p =>
    rw [processDevice] at h
    simp at h
  | softNpuP9 p =>
    rw [processDevice] at h
    simp at h
  | p9fs p =>
    rw [processDevice] at h
    simp at h

theorem processDevices_ok_accounts {devs : List (String × DeviceComponent)}
    {st st' : ConvState} (h : processDevices st devs = .ok st') :
    (↑(stateComponents st') : Multiset (String × ComponentV0)) =
      ↑(stateComponents st) + ↑(devComponents devs) ∧
    st'.builder.spec.board = st.builder.spec.board := by
  induction devs generalizing st with
  | nil =>
    rw [processDevices] at h
    injection h with h1
    subst h1
    simp [devComponents]
  | cons p rest ih =>
    obtain ⟨n, d⟩ := p
    rw [processDevices] at h
    rcases hp : processDevice st n d with e | st2
    · rw [hp] at h
      simp at h
    · rw [hp] at h
      obtain ⟨hacc, hboard⟩ := processDevice_ok_accounts hp
      obtain ⟨hacc', hboard'⟩ := ih h
      constructor
      · rw [hacc', hacc]
        simp only [devComponents, List.map_cons, ← Multiset.cons_coe,
          Multiset.coe_nil, ← Multiset.singleton_add]
        abel
      · rw [hboard', hboard]

theorem stateComponents_init (board : Board)
    (sbl : List (String × StorageBackend))
    (vbl : List (String × VirtioNetworkBackend))
    (dbl : List (String × DlpiNetworkBackend)) :
    (↑(stateComponents ⟨ServerSpecBuilder.with_board board, sbl, vbl, dbl⟩) :
      Multiset (String × ComponentV0)) =
      ↑(sbComponents sbl) + ↑(vbComponents vbl) + ↑(dbComponents dbl) := by
  simp only [stateComponents, ServerSpecBuilder.with_board, emitComponents,
    List.flatMap_nil, List.filterMap_nil, List.map_nil, List.nil_append,
    List.append_nil, ← Multiset.coe_add]

/-- C7: for every wire spec whose conversion to the grouped form succeeds
(every Builder-producible spec that reaches a running instance does), the
re-flattened wire spec has the same board and exactly the same multiset of
named components as the original. -/
theorem wire_grouped_wire_roundtrip (w : InstanceSpecV0) (g : Spec)
    (h : wireToGrouped w = .ok g) :
    (groupedToWire g).board = w.board ∧
    (↑(groupedToWire g).components : Multiset (String × ComponentV0)) =
      ↑w.components := by
  rw [wireToGrouped] at h
  split at h
  · simp at h
  · rename_i st hpd
    split at h
    · simp at h
    · rename_i hsb
      split at h
      · simp at h
      · rename_i hvb
        split at h
        · simp at h
        · rename_i hdb
          injection h with h1
          obtain ⟨hacc, hboard⟩ := processDevices_ok_accounts hpd
          have hg : g = st.builder.spec := h1 ▸ rfl
          subst hg
          refine ⟨by rw [groupedToWire]; simp only [hboard]; rfl, ?_⟩
          have hstate : (↑(stateComponents st) :
              Multiset (String × ComponentV0)) =
              ↑(emitComponents st.builder.spec) := by
            simp [stateComponents, hsb, hvb, hdb, sbComponents,
              vbComponents, dbComponents]
          rw [groupedToWire]
          calc (↑(emitComponents st.builder.spec) :
              Multiset (String × ComponentV0))
              = ↑(stateComponents st) := hstate.symm
            _ = _ := hacc
            _ = ↑w.components := by
                rw [initConvState, stateComponents_init,
                  ← partition_accounts w.components]
                abel

/-- Witness for C7 at a concrete one-disk spec. -/
theorem wire_grouped_wire_roundtrip_witness :
    (groupedToWire
        ⟨⟨2, 1024, .i440Fx ⟨true⟩, .bhyveDefault⟩,
          [("disk0", ⟨.virtioDisk ⟨"be0", ⟨0, 4, 0⟩⟩,
            .crucible ⟨"req", false⟩⟩)], [], [], [], none⟩).board =
      (InstanceSpecV0.mk ⟨2, 1024, .i440Fx ⟨true⟩, .bhyveDefault⟩
        [("disk0", .virtioDisk ⟨"be0", ⟨0, 4, 0⟩⟩),
         ("be0", .crucibleBackend ⟨"req", false⟩)]).board ∧
    (↑(groupedToWire
        ⟨⟨2, 1024, .i440Fx ⟨true⟩, .bhyveDefault⟩,
          [("disk0", ⟨.virtioDisk ⟨"be0", ⟨0, 4, 0⟩⟩,
            .crucible ⟨"req", false⟩⟩)], [], [], [], none⟩).components :
        Multiset (String × ComponentV0)) =
      ↑(InstanceSpecV0.mk ⟨2, 1024, .i440Fx ⟨true⟩, .bhyveDefault⟩
        [("disk0", .virtioDisk ⟨"be0", ⟨0, 4, 0⟩⟩),
         ("be0", .crucibleBackend ⟨"req", false⟩)]).components :=
  wire_grouped_wire_roundtrip
    ⟨⟨2, 1024, .i440Fx ⟨true⟩, .bhyveDefault⟩,
      [("disk0", .virtioDisk ⟨"be0", ⟨0, 4, 0⟩⟩),
       ("be0", .crucibleBackend ⟨"req", false⟩)]⟩
    ⟨⟨2, 1024, .i440Fx ⟨true⟩, .bhyveDefault⟩,
      [("disk0", ⟨.virtioDisk ⟨"be0", ⟨0, 4, 0⟩⟩,
        .crucible ⟨"req", false⟩⟩)], [], [], [], none⟩
    (by rfl)

/-- Whether a wire component is a storage-backend kind (the kinds the
first conversion pass sends to the storage bucket). -/
def ComponentV0.isStorageBackend : ComponentV0 → Bool
  | .crucibleBackend _ => true
  | .fileStorageBackend _ => true
  | .blobStorageBackend _ => true
  | _ => false

/-- The storage-backend name referenced by a wire component, when it is a
disk device. -/
def ComponentV0.diskBackendName : ComponentV0 → Option String
  | .virtioDisk d => some d.backend_name
  | .nvmeDisk d => some d.backend_name
  | _ => none

/-- The viona-backend name referenced by a wire component, when it is a
virtio NIC. -/
def ComponentV0.nicBackendName : ComponentV0 → Option String
  | .virtioNic n => some n.backend_name
  | _ => none

/-- The storage-backend name a partitioned device will try to consume. -/
def DeviceComponent.storageBackendRef : DeviceComponent → Option String
  | .virtioDisk d => some d.backend_name
  | .nvmeDisk d => some d.backend_name
  | _ => none

/-- The viona-backend name a partitioned device will try to consume. -/
def DeviceComponent.vionaBackendRef : DeviceComponent → Option String
  | .virtioNic n => some n.backend_name
  | _ => none

theorem removeEntry_isSome {α : Type} {k : String} {l : List (String × α)}
    (h : (alookup k l).isSome) :
    ∃ v rest, removeEntry k l = some (v, rest) := by
  rcases hr : removeEntry k l with _ | ⟨v, rest⟩
  · rw [removeEntry_none.mp hr] at h
    simp at h
  · exact ⟨v, rest, rfl⟩

theorem removeEntry_preserves {α : Type} {k0 k : String} {v : α}
    {l rest : List (String × α)} (h : removeEntry k0 l = some (v, rest)) :
    (alookup k rest).isSome → (alookup k l).isSome := by
  induction l generalizing rest with
  | nil => simp [removeEntry] at h
  | cons p t ih =>
    obtain ⟨k', v'⟩ := p
    by_cases hk : k' = k0
    · rw [removeEntry, if_pos hk] at h
      injection h with h1
      obtain ⟨h2, h3⟩ := Prod.mk.injEq .. ▸ h1
      subst h3
      intro hs
      by_cases hkk : k' = k <;> simp [alookup, hkk, hs]
    · rw [removeEntry, if_neg hk] at h
      rcases hrec : removeEntry k0 t with _ | ⟨w, t'⟩
      · rw [hrec] at h
        simp at h
      · rw [hrec] at h
        injection h with h1
        obtain ⟨h2, h3⟩ := Prod.mk.injEq .. ▸ h1
        subst h2 h3
        intro hs
        by_cases hkk : k' = k
        · simp [alookup, hkk]
        · rw [alookup, if_neg hkk] at hs ⊢
          exact ih hrec hs

theorem removeEntry_other {α : Type} {k0 k : String} {v : α}
    {l rest : List (String × α)} (h : removeEntry k0 l = some (v, rest))
    (hne : k ≠ k0) : (alookup k l).isSome → (alookup k rest).isSome := by
  induction l generalizing rest with
  | nil => simp [removeEntry] at h
  | cons p t ih =>
    obtain ⟨k', v'⟩ := p
    by_cases hk : k' = k0
    · rw [removeEntry, if_pos hk] at h
      injection h with h1
      obtain ⟨h2, h3⟩ := Prod.mk.injEq .. ▸ h1
      subst h3
      intro hs
      have hkk : ¬(k' = k) := fun hh => hne ((hh.symm.trans hk))
      rw [alookup, if_neg hkk] at hs
      exact hs
    · rw [removeEntry, if_neg hk] at h
      rcases hrec : removeEntry k0 t with _ | ⟨w, t'⟩
      · rw [hrec] at h
        simp at h
      · rw [hrec] at h
        injection h with h1
        obtain ⟨h2, h3⟩ := Prod.mk.injEq .. ▸ h1
        subst h2 h3
        intro hs
        by_cases hkk : k' = k
        · simp [alookup, hkk]
        · rw [alookup, if_neg hkk] at hs ⊢
          exact ih hrec hs

theorem mem_keys_of_alookup_isSome {α : Type} {k : String}
    {l : List (String × α)} (h : (alookup k l).isSome) :
    k ∈ l.map Prod.fst := by
  induction l with
  | nil => simp [alookup] at h
  | cons p t ih =>
    obtain ⟨k', v'⟩ := p
    by_cases hk : k' = k
    · simp [hk]
    · rw [alookup, if_neg hk] at h
      rw [List.map_cons]
      exact List.mem_cons.mpr (.inr (ih h))

theorem alookup_none_of_not_mem_keys {α : Type} {k : String}
    {l : List (String × α)} (h : k ∉ l.map Prod.fst) :
    alookup k l = none := by
  rcases ha : alookup k l with _ | v
  · rfl
  · exact absurd (mem_keys_of_alookup_isSome (by simp [ha])) h

theorem alookup_append {α : Type} (k : String) (a b : List (String × α)) :
    alookup k (a ++ b) =
      match alookup k a with
      | some v => some v
      | none => alookup k b := by
  induction a with
  | nil => simp [alookup]
  | cons p t ih =>
    obtain ⟨k', v'⟩ := p
    by_cases hk : k' = k <;> simp [alookup, hk, ih]

theorem removeEntry_split {α : Type} {k : String} {v : α}
    {l rest : List (String × α)} (h : removeEntry k l = some (v, rest)) :
    ∃ pre post, l = pre ++ (k, v) :: post ∧ rest = pre ++ post ∧
      alookup k pre = none := by
  induction l generalizing rest with
  | nil => simp [removeEntry] at h
  | cons p t ih =>
    obtain ⟨k', v'⟩ := p
    by_cases hk : k' = k
    · rw [removeEntry, if_pos hk] at h
      injection h with h1
      obtain ⟨h2, h3⟩ := Prod.mk.injEq .. ▸ h1
      subst h2 h3 hk
      exact ⟨[], t, rfl, rfl, rfl⟩
    · rw [removeEntry, if_neg hk] at h
      rcases hrec : removeEntry k t with _ | ⟨w, t'⟩
      · rw [hrec] at h
        simp at h
      · rw [hrec] at h
        injection h with h1
        obtain ⟨h2, h3⟩ := Prod.mk.injEq .. ▸ h1
        subst h2 h3
        obtain ⟨pre, post, he1, he2, he3⟩ := ih hrec
        exact ⟨(k', v') :: pre, post, by rw [he1]; rfl, by rw [he2]; rfl,
          by rw [alookup, if_neg hk]; exact he3⟩

theorem removeEntry_nodup {α : Type} {k : String} {v : α}
    {l rest : List (String × α)} (hnd : (l.map Prod.fst).Nodup)
    (h : removeEntry k l = some (v, rest)) :
    (rest.map Prod.fst).Nodup ∧ alookup k rest = none := by
  obtain ⟨pre, post, he1, he2, he3⟩ := removeEntry_split h
  subst he1 he2
  rw [List.map_append] at hnd ⊢
  constructor
  · refine hnd.sublist ?_
    refine List.Sublist.append_left ?_ _
    rw [List.map_cons]
    exact List.sublist_cons_self _ _
  · rw [alookup_append, he3]
    have hnotpost : k ∉ post.map Prod.fst := by
      have h2 := (List.nodup_append.mp hnd).2.1
      rw [List.map_cons] at h2
      exact (List.nodup_cons.mp h2).1
    exact alookup_none_of_not_mem_keys hnotpost

theorem processDevice_buckets {st st2 : ConvState} {n : String}
    {d : DeviceComponent} (h : processDevice st n d = .ok st2) :
    (st2.storage_backends = st.storage_backends ∨
      ∃ bn bspec, d.storageBackendRef = some bn ∧
        removeEntry bn st.storage_backends =
          some (bspec, st2.storage_backends)) ∧
    (st2.viona_backends = st.viona_backends ∨
      ∃ bn bspec, d.vionaBackendRef = some bn ∧
        removeEntry bn st.viona_backends =
          some (bspec, st2.viona_backends)) ∧
    st2.dlpi_backends = st.dlpi_backends := by
  cases d with
  | virtioDisk dd =>
    rw [processDevice] at h
    rcases hre : removeEntry dd.backend_name st.storage_backends with
      _ | ⟨bspec, rest⟩
    · rw [hre] at h
      simp at h
    · rw [hre] at h
      dsimp only at h
      rcases hadd : st.builder.add_storage_device n ⟨.virtioDisk dd, bspec⟩
        with e | b2
      · rw [hadd] at h
        simp [bind, Except.bind] at h
      · rw [hadd] at h
        simp only [bind, Except.bind] at h
        injection h with h1
        subst h1
        exact ⟨.inr ⟨dd.backend_name, bspec, rfl, hre⟩, .inl rfl, rfl⟩
  | nvmeDisk dd =>
    rw [processDevice] at h
    rcases hre : removeEntry dd.backend_name st.storage_backends with
      _ | ⟨bspec, rest⟩
    · rw [hre] at h
      simp at h
    · rw [hre] at h
      dsimp only at h
      rcases hadd : st.builder.add_storage_device n ⟨.nvmeDisk dd, bspec⟩
        with e | b2
      · rw [hadd] at h
        simp [bind, Except.bind] at h
      · rw [hadd] at h
        simp only [bind, Except.bind] at h
        injection h with h1
        subst h1
        exact ⟨.inr ⟨dd.backend_name, bspec, rfl, hre⟩, .inl rfl, rfl⟩
  | virtioNic nic =>
    rw [processDevice] at h
    rcases hre : removeEntry nic.backend_name st.viona_backends with
      _ | ⟨bspec, rest⟩
    · rw [hre] at h
      simp at h
    · rw [hre] at h
      dsimp only at h
      rcases hadd : st.builder.add_network_device n ⟨nic, bspec⟩ with e | b2
      · rw [hadd] at h
        simp [bind, Except.bind] at h
      · rw [hadd] at h
        simp only [bind, Except.bind] at h
        injection h with h1
        subst h1
        exact ⟨.inl rfl, .inr ⟨nic.backend_name, bspec, rfl, hre⟩, rfl⟩
  | serialPort sp =>
    rw [processDevice] at h
    rcases hadd : st.builder.add_serial_port n sp.num with e | b2
    · rw [hadd] at h
      simp [bind, Except.bind] at h
    · rw [hadd] at h
      simp only [bind, Except.bind] at h
      injection h with h1
      subst h1
      exact ⟨.inl rfl, .inl rfl, rfl⟩
  | pciPciBridge bridge =>
    rw [processDevice] at h
    rcases hadd : st.builder.add_pci_bridge n bridge with e | b2
    · rw [hadd] at h
      simp [bind, Except.bind] at h
    · rw [hadd] at h
      simp only [bind, Except.bind] at h
      injection h with h1
      subst h1
      exact ⟨.inl rfl, .inl rfl, rfl⟩
  | qemuPvpanic q =>
    rw [processDevice] at h
    rcases hadd : st.builder.add_pvpanic_device ⟨n, q⟩ with e | b2
    · rw [hadd] at h
      simp [bind, Except.bind] at h
    · rw [hadd] at h
      simp only [bind, Except.bind] at h
      injection h with h1
      subst h1
      exact ⟨.inl rfl, .inl rfl, rfl⟩
  | softNpuPciPort p =>
    rw [processDevice] at h
    simp at h
  | softNpuPort p =>
    rw [processDevice] at h
    simp at h
  | softNpuP9 p =>
    rw [processDevice] at h
    simp at h
  | p9fs p =>
    rw [processDevice] at h
    simp at h

theorem takeName_error {b : ServerSpecBuilder} {n : String}
    {e : ApiSpecParseError} (h : b.takeName n = .error e) :
    ∃ se, e = .builderError se := by
  rw [ServerSpecBuilder.takeName] at h
  by_cases hn : n ∈ b.names
  · rw [if_pos hn] at h
    injection h with h1
    exact ⟨_, h1.symm⟩
  · rw [if_neg hn] at h
    simp at h

theorem takePciPath_error {b : ServerSpecBuilder} {p : PciPath}
    {e : ApiSpecParseError} (h : b.takePciPath p = .error e) :
    ∃ se, e = .builderError se := by
  rw [ServerSpecBuilder.takePciPath] at h
  by_cases hp : p ∈ b.pci_paths
  · rw [if_pos hp] at h
    injection h with h1
    exact ⟨_, h1.symm⟩
  · rw [if_neg hp] at h
    simp at h

theorem add_storage_device_error {b : ServerSpecBuilder} {n : String}
    {d : Disk} {e : ApiSpecParseError}
    (h : b.add_storage_device n d = .error e) :
    ∃ se, e = .builderError se := by
  rw [ServerSpecBuilder.add_storage_device] at h
  rcases h1 : b.takeName n with e1 | ba
  · rw [h1] at h
    simp only [bind, Except.bind] at h
    injection h with h2
    exact h2 ▸ takeName_error h1
  · rw [h1] at h
    simp only [bind, Except.bind] at h
    rcases h2 : ba.takeName d.device_spec.backend_name with e1 | bb
    · rw [h2] at h
      injection h with h3
      exact h3 ▸ takeName_error h2
    · rw [h2] at h
      dsimp only at h
      rcases h3 : bb.takePciPath d.device_spec.pci_path with e1 | bc
      · rw [h3] at h
        injection h with h4
        exact h4 ▸ takePciPath_error h3
      · rw [h3] at h
        simp at h

theorem add_network_device_error {b : ServerSpecBuilder} {n : String}
    {nic : Nic} {e : ApiSpecParseError}
    (h : b.add_network_device n nic = .error e) :
    ∃ se, e = .builderError se := by
  rw [ServerSpecBuilder.add_network_device] at h
  rcases h1 : b.takeName n with e1 | ba
  · rw [h1] at h
    simp only [bind, Except.bind] at h
    injection h with h2
    exact h2 ▸ takeName_error h1
  · rw [h1] at h
    simp only [bind, Except.bind] at h
    rcases h2 : ba.takeName nic.device_spec.backend_name with e1 | bb
    · rw [h2] at h
      injection h with h3
      exact h3 ▸ takeName_error h2
    · rw [h2] at h
      dsimp only at h
      rcases h3 : bb.takePciPath nic.device_spec.pci_path with e1 | bc
      · rw [h3] at h
        injection h with h4
        exact h4 ▸ takePciPath_error h3
      · rw [h3] at h
        simp at h

theorem add_serial_port_error {b : ServerSpecBuilder} {n : String}
    {num : SerialPortNumber} {e : ApiSpecParseError}
    (h : b.add_serial_port n num = .error e) :
    ∃ se, e = .builderError se := by
  rw [ServerSpecBuilder.add_serial_port] at h
  rcases h1 : b.takeName n with e1 | ba
  · rw [h1] at h
    simp only [bind, Except.bind] at h
    injection h with h2
    exact h2 ▸ takeName_error h1
  · rw [h1] at h
    simp only [bind, Except.bind] at h
    by_cases hs : num ∈ ba.serial_ports
    · rw [if_pos hs] at h
      injection h with h2
      exact ⟨_, h2.symm⟩
    · rw [if_neg hs] at h
      simp at h

theorem add_pci_bridge_error {b : ServerSpecBuilder} {n : String}
    {bridge : PciPciBridge} {e : ApiSpecParseError}
    (h : b.add_pci_bridge n bridge = .error e) :
    ∃ se, e = .builderError se := by
  rw [ServerSpecBuilder.add_pci_bridge] at h
  rcases h1 : b.takeName n with e1 | ba
  · rw [h1] at h
    simp only [bind, Except.bind] at h
    injection h with h2
    exact h2 ▸ takeName_error h1
  · rw [h1] at h
    simp only [bind, Except.bind] at h
    rcases h3 : ba.takePciPath bridge.pci_path with e1 | bc
    · rw [h3] at h
      injection h with h4
      exact h4 ▸ takePciPath_error h3
    · rw [h3] at h
      simp at h

theorem add_pvpanic_device_error {b : ServerSpecBuilder}
    {dev : PvpanicEntry} {e : ApiSpecParseError}
    (h : b.add_pvpanic_device dev = .error e) :
    ∃ se, e = .builderError se := by
  rw [ServerSpecBuilder.add_pvpanic_device] at h
  rcases h1 : b.takeName dev.name with e1 | ba
  · rw [h1] at h
    simp only [bind, Except.bind] at h
    injection h with h2
    exact h2 ▸ takeName_error h1
  · rw [h1] at h
    simp only [bind, Except.bind] at h
    rcases hp : ba.spec.pvpanic with _ | old
    · rw [hp] at h
      simp at h
    · rw [hp] at h
      injection h with h2
      exact ⟨_, h2.symm⟩

theorem processDevice_error_shape {st : ConvState} {n : String}
    {d : DeviceComponent} {e : ApiSpecParseError}
    (h : processDevice st n d = .error e) :
    ∀ c, e ≠ .backendNotUsed c := by
  intro c
  cases d with
  | virtioDisk dd =>
    rw [processDevice] at h
    rcases hre : removeEntry dd.backend_name st.storage_backends with
      _ | ⟨bspec, rest⟩
    · rw [hre] at h
      injection h with h1
      simp [← h1]
    · rw [hre] at h
      dsimp only at h
      rcases hadd : st.builder.add_storage_device n ⟨.virtioDisk dd, bspec⟩
        with e1 | b2
      · rw [hadd] at h
        simp only [bind, Except.bind] at h
        injection h with h1
        obtain ⟨se, hse⟩ := add_storage_device_error hadd
        simp [← h1, hse]
      · rw [hadd] at h
        simp [bind, Except.bind] at h
  | nvmeDisk dd =>
    rw [processDevice] at h
    rcases hre : removeEntry dd.backend_name st.storage_backends with
      _ | ⟨bspec, rest⟩
    · rw [hre] at h
      injection h with h1
      simp [← h1]
    · rw [hre] at h
      dsimp only at h
      rcases hadd : st.builder.add_storage_device n ⟨.nvmeDisk dd, bspec⟩
        with e1 | b2
      · rw [hadd] at h
        simp only [bind, Except.bind] at h
        injection h with h1
        obtain ⟨se, hse⟩ := add_storage_device_error hadd
        simp [← h1, hse]
      · rw [hadd] at h
        simp [bind, Except.bind] at h
  | virtioNic nic =>
    rw [processDevice] at h
    rcases hre : removeEntry nic.backend_name st.viona_backends with
      _ | ⟨bspec, rest⟩
    · rw [hre] at h
      injection h with h1
      simp [← h1]
    · rw [hre] at h
      dsimp only at h
      rcases hadd : st.builder.add_network_device n ⟨nic, bspec⟩ with e1 | b2
      · rw [hadd] at h
        simp only [bind, Except.bind] at h
        injection h with h1
        obtain ⟨se, hse⟩ := add_network_device_error hadd
        simp [← h1, hse]
      · rw [hadd] at h
        simp [bind, Except.bind] at h
  | serialPort sp =>
    rw [processDevice] at h
    rcases hadd : st.builder.add_serial_port n sp.num with e1 | b2
    · rw [hadd] at h
      simp only [bind, Except.bind] at h
      injection h with h1
      obtain ⟨se, hse⟩ := add_serial_port_error hadd
      simp [← h1, hse]
    · rw [hadd] at h
      simp [bind, Except.bind] at h
  | pciPciBridge bridge =>
    rw [processDevice] at h
    rcases hadd : st.builder.add_pci_bridge n bridge with e1 | b2
    · rw [hadd] at h
      simp only [bind, Except.bind] at h
      injection h with h1
      obtain ⟨se, hse⟩ := add_pci_bridge_error hadd
      simp [← h1, hse]
    · rw [hadd] at h
      simp [bind, Except.bind] at h
  | qemuPvpanic q =>
    rw [processDevice] at h
    rcases hadd : st.builder.add_pvpanic_device ⟨n, q⟩ with e1 | b2
    · rw [hadd] at h
      simp only [bind, Except.bind] at h
      injection h with h1
      obtain ⟨se, hse⟩ := add_pvpanic_device_error hadd
      simp [← h1, hse]
    · rw [hadd] at h
      simp [bind, Except.bind] at h
  | softNpuPciPort p =>
    rw [processDevice] at h
    injection h with h1
    simp [← h1]
  | softNpuPort p =>
    rw [processDevice] at h
    injection h with h1
    simp [← h1]
  | softNpuP9 p =>
    rw [processDevice] at h
    injection h with h1
    simp [← h1]
  | p9fs p =>
    rw [processDevice] at h
    injection h with h1
    simp [← h1]

theorem processDevices_error_shape {devs : List (String × DeviceComponent)}
    {st : ConvState} {e : ApiSpecParseError}
    (h : processDevices st devs = .error e) :
    ∀ c, e ≠ .backendNotUsed c := by
  induction devs generalizing st with
  | nil => simp [processDevices] at h
  | cons p rest ih =>
    obtain ⟨n, d⟩ := p
    rw [processDevices] at h
    rcases hp : processDevice st n d with e1 | st2
    · rw [hp] at h
      injection h with h1
      exact h1 ▸ processDevice_error_shape hp
    · rw [hp] at h
      exact ih h

theorem processDevice_storage_none {st st2 : ConvState} {n : String}
    {d : DeviceComponent} {bn : String}
    (h : processDevice st n d = .ok st2)
    (hnone : alookup bn st.storage_backends = none) :
    alookup bn st2.storage_backends = none := by
  rcases (processDevice_buckets h).1 with heq | ⟨bn0, bsp, _, hrem⟩
  · rw [heq]
    exact hnone
  · rcases ha : alookup bn st2.storage_backends with _ | v
    · rfl
    · exfalso
      have := removeEntry_preserves hrem (by rw [ha]; rfl)
      rw [hnone] at this
      simp at this

theorem processDevice_viona_none {st st2 : ConvState} {n : String}
    {d : DeviceComponent} {bn : String}
    (h : processDevice st n d = .ok st2)
    (hnone : alookup bn st.viona_backends = none) :
    alookup bn st2.viona_backends = none := by
  rcases (processDevice_buckets h).2.1 with heq | ⟨bn0, bsp, _, hrem⟩
  · rw [heq]
    exact hnone
  · rcases ha : alookup bn st2.viona_backends with _ | v
    · rfl
    · exfalso
      have := removeEntry_preserves hrem (by rw [ha]; rfl)
      rw [hnone] at this
      simp at this

theorem processDevices_dangling_storage
    {devs : List (String × DeviceComponent)} {st : ConvState}
    {n bn : String} {dev : DeviceComponent}
    (hmem : (n, dev) ∈ devs) (href : dev.storageBackendRef = some bn)
    (hnone : alookup bn st.storage_backends = none) :
    ∃ e, processDevices st devs = .error e := by
  induction devs generalizing st with
  | nil => simp at hmem
  | cons p rest ih =>
    obtain ⟨n', d'⟩ := p
    rcases hp : processDevice st n' d' with e | st2
    · exact ⟨e, by rw [processDevices, hp]⟩
    · have hlift : processDevices st ((n', d') :: rest) =
          processDevices st2 rest := by
        rw [processDevices, hp]
      rcases List.mem_cons.mp hmem with hh | hh
      · exfalso
        obtain ⟨he1, he2⟩ := Prod.mk.injEq .. ▸ hh
        subst he1 he2
        cases dev <;>
          first
          | (rw [DeviceComponent.storageBackendRef] at href
             injection href with href2
             subst href2
             rw [processDevice, removeEntry_none.mpr hnone] at hp
             simp at hp)
          | simp [DeviceComponent.storageBackendRef] at href
      · obtain ⟨e, he⟩ := ih hh (processDevice_storage_none hp hnone)
        exact ⟨e, hlift ▸ he⟩

theorem processDevices_dangling_viona
    {devs : List (String × DeviceComponent)} {st : ConvState}
    {n bn : String} {dev : DeviceComponent}
    (hmem : (n, dev) ∈ devs) (href : dev.vionaBackendRef = some bn)
    (hnone : alookup bn st.viona_backends = none) :
    ∃ e, processDevices st devs = .error e := by
  induction devs generalizing st with
  | nil => simp at hmem
  | cons p rest ih =>
    obtain ⟨n', d'⟩ := p
    rcases hp : processDevice st n' d' with e | st2
    · exact ⟨e, by rw [processDevices, hp]⟩
    · have hlift : processDevices st ((n', d') :: rest) =
          processDevices st2 rest := by
        rw [processDevices, hp]
      rcases List.mem_cons.mp hmem with hh | hh
      · exfalso
        obtain ⟨he1, he2⟩ := Prod.mk.injEq .. ▸ hh
        subst he1 he2
        cases dev <;>
          first
          | (rw [DeviceComponent.vionaBackendRef] at href
             injection href with href2
             subst href2
             rw [processDevice, removeEntry_none.mpr hnone] at hp
             simp at hp)
          | simp [DeviceComponent.vionaBackendRef] at href
      · obtain ⟨e, he⟩ := ih hh (processDevice_viona_none hp hnone)
        exact ⟨e, hlift ▸ he⟩

theorem partition_storage_absent {comps : List (String × ComponentV0)}
    {bn : String}
    (h : ∀ k v, (k, v) ∈ comps → v.isStorageBackend = true → k ≠ bn) :
    alookup bn (partitionComponents comps).storage_backends = none := by
  induction comps with
  | nil => rfl
  | cons p rest ih =>
    obtain ⟨k, c⟩ := p
    have hrest : ∀ k v, (k, v) ∈ rest → v.isStorageBackend = true →
        k ≠ bn :=
      fun k' v' hm => h k' v' (List.mem_cons_of_mem _ hm)
    have hk := h k c (List.mem_cons_self _ _)
    cases c <;>
      simp only [partitionComponents] <;>
      first
      | exact ih hrest
      | (rw [alookup, if_neg (hk rfl)]
         exact ih hrest)

theorem partition_storage_present {comps : List (String × ComponentV0)}
    {k0 : String} {v : ComponentV0} (hm : (k0, v) ∈ comps)
    (hsb : v.isStorageBackend = true) :
    (alookup k0 (partitionComponents comps).storage_backends).isSome := by
  induction comps with
  | nil => simp at hm
  | cons p rest ih =>
    obtain ⟨k, c⟩ := p
    rcases List.mem_cons.mp hm with hh | hh
    · obtain ⟨he1, he2⟩ := Prod.mk.injEq .. ▸ hh
      subst he1 he2
      cases v <;> simp [ComponentV0.isStorageBackend] at hsb <;>
        simp [partitionComponents, alookup]
    · cases c <;>
        simp only [partitionComponents] <;>
        first
        | exact ih hh
        | (rw [alookup]
           split
           · rfl
           · exact ih hh)

theorem partition_storage_keys_sublist (comps : List (String × ComponentV0)) :
    List.Sublist ((partitionComponents comps).storage_backends.map Prod.fst)
      (comps.map Prod.fst) := by
  induction comps with
  | nil => exact .refl _
  | cons p rest ih =>
    obtain ⟨k, c⟩ := p
    cases c <;>
      simp only [partitionComponents, List.map_cons] <;>
      first
      | exact ih.cons _
      | exact ih.cons₂ _

theorem partition_viona_keys_sublist (comps : List (String × ComponentV0)) :
    List.Sublist ((partitionComponents comps).viona_backends.map Prod.fst)
      (comps.map Prod.fst) := by
  induction comps with
  | nil => exact .refl _
  | cons p rest ih =>
    obtain ⟨k, c⟩ := p
    cases c <;>
      simp only [partitionComponents, List.map_cons] <;>
      first
      | exact ih.cons _
      | exact ih.cons₂ _

theorem partition_append (X Y : List (String × ComponentV0)) :
    partitionComponents (X ++ Y) =
      ⟨(partitionComponents X).devices ++ (partitionComponents Y).devices,
       (partitionComponents X).storage_backends ++
         (partitionComponents Y).storage_backends,
       (partitionComponents X).viona_backends ++
         (partitionComponents Y).viona_backends,
       (partitionComponents X).dlpi_backends ++
         (partitionComponents Y).dlpi_backends⟩ := by
  induction X with
  | nil => simp [partitionComponents]
  | cons p rest ih =>
    obtain ⟨k, c⟩ := p
    cases c <;> simp [partitionComponents, ih]

theorem partition_devices_mem {comps : List (String × ComponentV0)}
    {n : String} {dv : DeviceComponent}
    (h : (n, dv) ∈ (partitionComponents comps).devices) :
    (n, dv.into) ∈ comps := by
  induction comps with
  | nil => simp [partitionComponents] at h
  | cons p rest ih =>
    obtain ⟨k, c⟩ := p
    cases c <;>
      simp only [partitionComponents] at h <;>
      first
      | exact List.mem_cons_of_mem _ (ih h)
      | (rcases List.mem_cons.mp h with hh | hh
         · obtain ⟨he1, he2⟩ := Prod.mk.injEq .. ▸ hh
           subst he1 he2
           exact List.mem_cons_self _ _
         · exact List.mem_cons_of_mem _ (ih hh))

theorem processDevice_nodup_storage {st st2 : ConvState} {n : String}
    {d : DeviceComponent} (h : processDevice st n d = .ok st2)
    (hnd : (st.storage_backends.map Prod.fst).Nodup) :
    (st2.storage_backends.map Prod.fst).Nodup := by
  rcases (processDevice_buckets h).1 with heq | ⟨bn0, bsp, _, hrem⟩
  · rw [heq]
    exact hnd
  · exact (removeEntry_nodup hnd hrem).1

theorem processDevice_nodup_viona {st st2 : ConvState} {n : String}
    {d : DeviceComponent} (h : processDevice st n d = .ok st2)
    (hnd : (st.viona_backends.map Prod.fst).Nodup) :
    (st2.viona_backends.map Prod.fst).Nodup := by
  rcases (processDevice_buckets h).2.1 with heq | ⟨bn0, bsp, _, hrem⟩
  · rw [heq]
    exact hnd
  · exact (removeEntry_nodup hnd hrem).1

theorem processDevices_shared_storage
    {A B : List (String × DeviceComponent)} {st : ConvState}
    {n1 n2 bn : String} {d1 d2 : DeviceComponent}
    (h1 : d1.storageBackendRef = some bn) (hmem2 : (n2, d2) ∈ B)
    (h2 : d2.storageBackendRef = some bn)
    (hnd : (st.storage_backends.map Prod.fst).Nodup) :
    ∃ e, processDevices st (A ++ (n1, d1) :: B) = .error e := by
  induction A generalizing st with
  | nil =>
    rw [List.nil_append]
    rcases hp : processDevice st n1 d1 with e | st2
    · exact ⟨e, by rw [processDevices, hp]⟩
    · have hlift : processDevices st ((n1, d1) :: B) =
          processDevices st2 B := by
        rw [processDevices, hp]
      have hnone : alookup bn st2.storage_backends = none := by
        cases d1 with
        | virtioDisk dd =>
          rw [DeviceComponent.storageBackendRef] at h1
          injection h1 with h1e
          subst h1e
          rw [processDevice] at hp
          rcases hre : removeEntry dd.backend_name st.storage_backends with
            _ | ⟨bspec, rest⟩
          · rw [hre] at hp
            simp at hp
          · rw [hre] at hp
            dsimp only at hp
            rcases hadd : st.builder.add_storage_device n1
              ⟨.virtioDisk dd, bspec⟩ with e1 | b2
            · rw [hadd] at hp
              simp [bind, Except.bind] at hp
            · rw [hadd] at hp
              simp only [bind, Except.bind] at hp
              injection hp with hp1
              subst hp1
              exact (removeEntry_nodup hnd hre).2
        | nvmeDisk dd =>
          rw [DeviceComponent.storageBackendRef] at h1
          injection h1 with h1e
          subst h1e
          rw [processDevice] at hp
          rcases hre : removeEntry dd.backend_name st.storage_backends with
            _ | ⟨bspec, rest⟩
          · rw [hre] at hp
            simp at hp
          · rw [hre] at hp
            dsimp only at hp
            rcases hadd : st.builder.add_storage_device n1
              ⟨.nvmeDisk dd, bspec⟩ with e1 | b2
            · rw [hadd] at hp
              simp [bind, Except.bind] at hp
            · rw [hadd] at hp
              simp only [bind, Except.bind] at hp
              injection hp with hp1
              subst hp1
              exact (removeEntry_nodup hnd hre).2
        | virtioNic x => simp [DeviceComponent.storageBackendRef] at h1
        | serialPort x => simp [DeviceComponent.storageBackendRef] at h1
        | pciPciBridge x => simp [DeviceComponent.storageBackendRef] at h1
        | qemuPvpanic x => simp [DeviceComponent.storageBackendRef] at h1
        | softNpuPciPort x => simp [DeviceComponent.storageBackendRef] at h1
        | softNpuPort x => simp [DeviceComponent.storageBackendRef] at h1
        | softNpuP9 x => simp [DeviceComponent.storageBackendRef] at h1
        | p9fs x => simp [DeviceComponent.storageBackendRef] at h1
      obtain ⟨e, he⟩ := processDevices_dangling_storage hmem2 h2 hnone
      exact ⟨e, hlift ▸ he⟩
  | cons a A' ih =>
    obtain ⟨na, da⟩ := a
    rcases hp : processDevice st na da with e | st2
    · exact ⟨e, by rw [List.cons_append, processDevices, hp]⟩
    · obtain ⟨e, he⟩ := ih (processDevice_nodup_storage hp hnd)
      exact ⟨e, by rw [List.cons_append, processDevices, hp]; exact he⟩

theorem processDevices_shared_viona
    {A B : List (String × DeviceComponent)} {st : ConvState}
    {n1 n2 bn : String} {d1 d2 : DeviceComponent}
    (h1 : d1.vionaBackendRef = some bn) (hmem2 : (n2, d2) ∈ B)
    (h2 : d2.vionaBackendRef = some bn)
    (hnd : (st.viona_backends.map Prod.fst).Nodup) :
    ∃ e, processDevices st (A ++ (n1, d1) :: B) = .error e := by
  induction A generalizing st with
  | nil =>
    rw [List.nil_append]
    rcases hp : processDevice st n1 d1 with e | st2
    · exact ⟨e, by rw [processDevices, hp]⟩
    · have hlift : processDevices st ((n1, d1) :: B) =
          processDevices st2 B := by
        rw [processDevices, hp]
      have hnone : alookup bn st2.viona_backends = none := by
        cases d1 with
        | virtioNic nic =>
          rw [DeviceComponent.vionaBackendRef] at h1
          injection h1 with h1e
          subst h1e
          rw [processDevice] at hp
          rcases hre : removeEntry nic.backend_name st.viona_backends with
            _ | ⟨bspec, rest⟩
          · rw [hre] at hp
            simp at hp
          · rw [hre] at hp
            dsimp only at hp
            rcases hadd : st.builder.add_network_device n1 ⟨nic, bspec⟩
              with e1 | b2
            · rw [hadd] at hp
              simp [bind, Except.bind] at hp
            · rw [hadd] at hp
              simp only [bind, Except.bind] at hp
              injection hp with hp1
              subst hp1
              exact (removeEntry_nodup hnd hre).2
        | virtioDisk x => simp [DeviceComponent.vionaBackendRef] at h1
        | nvmeDisk x => simp [DeviceComponent.vionaBackendRef] at h1
        | serialPort x => simp [DeviceComponent.vionaBackendRef] at h1
        | pciPciBridge x => simp [DeviceComponent.vionaBackendRef] at h1
        | qemuPvpanic x => simp [DeviceComponent.vionaBackendRef] at h1
        | softNpuPciPort x => simp [DeviceComponent.vionaBackendRef] at h1
        | softNpuPort x => simp [DeviceComponent.vionaBackendRef] at h1
        | softNpuP9 x => simp [DeviceComponent.vionaBackendRef] at h1
        | p9fs x => simp [DeviceComponent.vionaBackendRef] at h1
      obtain ⟨e, he⟩ := processDevices_dangling_viona hmem2 h2 hnone
      exact ⟨e, hlift ▸ he⟩
  | cons a A' ih =>
    obtain ⟨na, da⟩ := a
    rcases hp : processDevice st na da with e | st2
    · exact ⟨e, by rw [List.cons_append, processDevices, hp]⟩
    · obtain ⟨e, he⟩ := ih (processDevice_nodup_viona hp hnd)
      exact ⟨e, by rw [List.cons_append, processDevices, hp]; exact he⟩

theorem partition_devices_of_disk {comps : List (String × ComponentV0)}
    {n bn : String} {c : ComponentV0} (hm : (n, c) ∈ comps)
    (hd : c.diskBackendName = some bn) :
    ∃ dv, (n, dv) ∈ (partitionComponents comps).devices ∧
      dv.storageBackendRef = some bn := by
  induction comps with
  | nil => simp at hm
  | cons p rest ih =>
    obtain ⟨k, c0⟩ := p
    rcases List.mem_cons.mp hm with hh | hh
    · obtain ⟨he1, he2⟩ := Prod.mk.injEq .. ▸ hh
      subst he1 he2
      cases c <;> simp [ComponentV0.diskBackendName] at hd
      · rename_i d
        exact ⟨.virtioDisk d, by simp [partitionComponents],
          by rw [DeviceComponent.storageBackendRef, hd]⟩
      · rename_i d
        exact ⟨.nvmeDisk d, by simp [partitionComponents],
          by rw [DeviceComponent.storageBackendRef, hd]⟩
    · obtain ⟨dv, hdm, hdr⟩ := ih hh
      refine ⟨dv, ?_, hdr⟩
      cases c0 <;>
        simp only [partitionComponents] <;>
        first
        | exact hdm
        | exact List.mem_cons_of_mem _ hdm

theorem partition_devices_of_nic {comps : List (String × ComponentV0)}
    {n bn : String} {c : ComponentV0} (hm : (n, c) ∈ comps)
    (hd : c.nicBackendName = some bn) :
    ∃ dv, (n, dv) ∈ (partitionComponents comps).devices ∧
      dv.vionaBackendRef = some bn := by
  induction comps with
  | nil => simp at hm
  | cons p rest ih =>
    obtain ⟨k, c0⟩ := p
    rcases List.mem_cons.mp hm with hh | hh
    · obtain ⟨he1, he2⟩ := Prod.mk.injEq .. ▸ hh
      subst he1 he2
      cases c <;> simp [ComponentV0.nicBackendName] at hd
      rename_i d
      exact ⟨.virtioNic d, by simp [partitionComponents],
        by rw [DeviceComponent.vionaBackendRef, hd]⟩
    · obtain ⟨dv, hdm, hdr⟩ := ih hh
      refine ⟨dv, ?_, hdr⟩
      cases c0 <;>
        simp only [partitionComponents] <;>
        first
        | exact hdm
        | exact List.mem_cons_of_mem _ hdm

theorem processDevices_keeps_unref
    {devs : List (String × DeviceComponent)} {st st' : ConvState}
    {k : String}
    (hno : ∀ n dv, (n, dv) ∈ devs → dv.storageBackendRef ≠ some k)
    (h : processDevices st devs = .ok st')
    (hs : (alookup k st.storage_backends).isSome) :
    (alookup k st'.storage_backends).isSome := by
  induction devs generalizing st with
  | nil =>
    rw [processDevices] at h
    injection h with h1
    subst h1
    exact hs
  | cons p rest ih =>
    obtain ⟨n, d⟩ := p
    rw [processDevices] at h
    rcases hp : processDevice st n d with e | st2
    · rw [hp] at h
      simp at h
    · rw [hp] at h
      have hs2 : (alookup k st2.storage_backends).isSome := by
        rcases (processDevice_buckets hp).1 with heq | ⟨bn, bsp, href, hrem⟩
        · rw [heq]
          exact hs
        · have hbk : k ≠ bn := by
            intro hkk
            exact hno n d (List.mem_cons_self _ _) (hkk ▸ href)
          exact removeEntry_other hrem hbk hs
      exact ih (fun n' dv hm => hno n' dv (List.mem_cons_of_mem _ hm)) h hs2

theorem processDevices_ok_append {a : List (String × DeviceComponent)}
    {st st' : ConvState} (b : List (String × DeviceComponent))
    (h : processDevices st a = .ok st') :
    processDevices st (a ++ b) = processDevices st' b := by
  induction a generalizing st with
  | nil =>
    rw [processDevices] at h
    injection h with h1
    subst h1
    rw [List.nil_append]
  | cons p rest ih =>
    obtain ⟨n, d⟩ := p
    rw [processDevices] at h
    rcases hp : processDevice st n d with e | st2
    · rw [hp] at h
      simp at h
    · rw [hp] at h
      rw [List.cons_append, processDevices, hp]
      exact ih h

theorem processDevices_storage_none {devs : List (String × DeviceComponent)}
    {st st' : ConvState} {bn : String}
    (h : processDevices st devs = .ok st')
    (hnone : alookup bn st.storage_backends = none) :
    alookup bn st'.storage_backends = none := by
  induction devs generalizing st with
  | nil =>
    rw [processDevices] at h
    injection h with h1
    subst h1
    exact hnone
  | cons p rest ih =>
    obtain ⟨n, d⟩ := p
    rw [processDevices] at h
    rcases hp : processDevice st n d with e | st2
    · rw [hp] at h
      simp at h
    · rw [hp] at h
      exact ih h (processDevice_storage_none hp hnone)

theorem processDevices_dlpi_eq {devs : List (String × DeviceComponent)}
    {st st' : ConvState} (h : processDevices st devs = .ok st') :
    st'.dlpi_backends = st.dlpi_backends := by
  induction devs generalizing st with
  | nil =>
    rw [processDevices] at h
    injection h with h1
    subst h1
    rfl
  | cons p rest ih =>
    obtain ⟨n, d⟩ := p
    rw [processDevices] at h
    rcases hp : processDevice st n d with e | st2
    · rw [hp] at h
      simp at h
    · rw [hp] at h
      rw [ih h, (processDevice_buckets hp).2.2]

theorem partition_viona_present {comps : List (String × ComponentV0)}
    {k0 : String} {v : VirtioNetworkBackend}
    (hm : (k0, ComponentV0.vionaBackend v) ∈ comps) :
    (alookup k0 (partitionComponents comps).viona_backends).isSome := by
  induction comps with
  | nil => simp at hm
  | cons p rest ih =>
    obtain ⟨k, c⟩ := p
    rcases List.mem_cons.mp hm with hh | hh
    · obtain ⟨he1, he2⟩ := Prod.mk.injEq .. ▸ hh
      subst he1
      subst he2
      simp [partitionComponents, alookup]
    · cases c <;>
        simp only [partitionComponents] <;>
        first
        | exact ih hh
        | (rw [alookup]
           split
           · rfl
           · exact ih hh)

theorem partition_dlpi_present {comps : List (String × ComponentV0)}
    {k0 : String} {v : DlpiNetworkBackend}
    (hm : (k0, ComponentV0.dlpiBackend v) ∈ comps) :
    (alookup k0 (partitionComponents comps).dlpi_backends).isSome := by
  induction comps with
  | nil => simp at hm
  | cons p rest ih =>
    obtain ⟨k, c⟩ := p
    rcases List.mem_cons.mp hm with hh | hh
    · obtain ⟨he1, he2⟩ := Prod.mk.injEq .. ▸ hh
      subst he1
      subst he2
      simp [partitionComponents, alookup]
    · cases c <;>
        simp only [partitionComponents] <;>
        first
        | exact ih hh
        | (rw [alookup]
           split
           · rfl
           · exact ih hh)

theorem processDevices_keeps_unref_viona
    {devs : List (String × DeviceComponent)} {st st' : ConvState}
    {k : String}
    (hno : ∀ n dv, (n, dv) ∈ devs → dv.vionaBackendRef ≠ some k)
    (h : processDevices st devs = .ok st')
    (hs : (alookup k st.viona_backends).isSome) :
    (alookup k st'.viona_backends).isSome := by
  induction devs generalizing st with
  | nil =>
    rw [processDevices] at h
    injection h with h1
    subst h1
    exact hs
  | cons p rest ih =>
    obtain ⟨n, d⟩ := p
    rw [processDevices] at h
    rcases hp : processDevice st n d with e | st2
    · rw [hp] at h
      simp at h
    · rw [hp] at h
      have hs2 : (alookup k st2.viona_backends).isSome := by
        rcases (processDevice_buckets hp).2.1 with heq | ⟨bn, bsp, href, hrem⟩
        · rw [heq]
          exact hs
        · have hbk : k ≠ bn := by
            intro hkk
            exact hno n d (List.mem_cons_self _ _) (hkk ▸ href)
          exact removeEntry_other hrem hbk hs
      exact ih (fun n' dv hm => hno n' dv (List.mem_cons_of_mem _ hm)) h hs2

/-- C8: Backend-linkage error behavior of wire-to-grouped conversion, amended.
A wire spec containing a disk device whose backend name matches no storage
backend component fails conversion; the error is exactly
`StorageBackendNotFound(backend, device)` whenever every device preceding
that disk processes successfully. A backend component referenced by no
device — a storage backend referenced by no disk, a viona backend referenced
by no NIC, or any dlpi backend (no device consumes the dlpi bucket in the
non-falcon build) — also fails conversion; when every device processes
successfully, the error is exactly `BackendNotUsed` naming the first
unconsumed backend, drawn from the storage bucket first, then viona, then
dlpi. The unconditional per-spec error naming stated by the original claim
does not hold: an earlier device can fail first with a different error (see
the counterexample). -/
theorem backend_linkage_errors :
    (∀ (w : InstanceSpecV0) (n bn : String) (c : ComponentV0),
      (n, c) ∈ w.components → c.diskBackendName = some bn →
      (∀ k v, (k, v) ∈ w.components → v.isStorageBackend = true → k ≠ bn) →
      ∃ e, wireToGrouped w = .error e) ∧
    (∀ (w : InstanceSpecV0)
        (pre rest : List (String × DeviceComponent))
        (n bn : String) (dv : DeviceComponent) (st : ConvState),
      (partitionComponents w.components).devices =
        pre ++ (n, dv) :: rest →
      processDevices (initConvState w) pre = .ok st →
      dv.storageBackendRef = some bn →
      (∀ k v, (k, v) ∈ w.components → v.isStorageBackend = true → k ≠ bn) →
      wireToGrouped w = .error (.storageBackendNotFound bn n)) ∧
    (∀ (w : InstanceSpecV0) (k : String) (v : ComponentV0),
      (k, v) ∈ w.components → v.isStorageBackend = true →
      (∀ n c, (n, c) ∈ w.components → c.diskBackendName ≠ some k) →
      ∃ e, wireToGrouped w = .error e) ∧
    (∀ (w : InstanceSpecV0) (k : String) (v : VirtioNetworkBackend),
      (k, ComponentV0.vionaBackend v) ∈ w.components →
      (∀ n c, (n, c) ∈ w.components → c.nicBackendName ≠ some k) →
      ∃ e, wireToGrouped w = .error e) ∧
    (∀ (w : InstanceSpecV0) (k : String) (v : DlpiNetworkBackend),
      (k, ComponentV0.dlpiBackend v) ∈ w.components →
      ∃ e, wireToGrouped w = .error e) ∧
    (∀ (w : InstanceSpecV0) (st : ConvState) (k : String)
        (b : StorageBackend) (rest : List (String × StorageBackend)),
      processDevices (initConvState w)
        (partitionComponents w.components).devices = .ok st →
      st.storage_backends = (k, b) :: rest →
      wireToGrouped w = .error (.backendNotUsed k)) ∧
    (∀ (w : InstanceSpecV0) (st : ConvState) (k : String)
        (b : VirtioNetworkBackend)
        (rest : List (String × VirtioNetworkBackend)),
      processDevices (initConvState w)
        (partitionComponents w.components).devices = .ok st →
      st.storage_backends = [] →
      st.viona_backends = (k, b) :: rest →
      wireToGrouped w = .error (.backendNotUsed k)) ∧
    (∀ (w : InstanceSpecV0) (st : ConvState) (k : String)
        (b : DlpiNetworkBackend)
        (rest : List (String × DlpiNetworkBackend)),
      processDevices (initConvState w)
        (partitionComponents w.components).devices = .ok st →
      st.storage_backends = [] →
      st.viona_backends = [] →
      st.dlpi_backends = (k, b) :: rest →
      wireToGrouped w = .error (.backendNotUsed k)) := by
  refine ⟨?_, ?_, ?_, ?_, ?_, ?_, ?_, ?_⟩
  · intro w n bn c hm hd habs
    obtain ⟨dv, hdm, hdr⟩ := partition_devices_of_disk hm hd
    have hnone : alookup bn (initConvState w).storage_backends = none :=
      partition_storage_absent habs
    obtain ⟨e, he⟩ := processDevices_dangling_storage hdm hdr hnone
    exact ⟨e, by rw [wireToGrouped, he]⟩
  · intro w pre rest n bn dv st hdev hpre hdr habs
    have hnone0 : alookup bn (initConvState w).storage_backends = none :=
      partition_storage_absent habs
    have hnone : alookup bn st.storage_backends = none :=
      processDevices_storage_none hpre hnone0
    have hproc : processDevice st n dv =
        .error (.storageBackendNotFound bn n) := by
      cases dv with
      | virtioDisk dd =>
        rw [DeviceComponent.storageBackendRef] at hdr
        injection hdr with hdr1
        subst hdr1
        rw [processDevice, removeEntry_none.mpr hnone]
      | nvmeDisk dd =>
        rw [DeviceComponent.storageBackendRef] at hdr
        injection hdr with hdr1
        subst hdr1
        rw [processDevice, removeEntry_none.mpr hnone]
      | virtioNic x => simp [DeviceComponent.storageBackendRef] at hdr
      | serialPort x => simp [DeviceComponent.storageBackendRef] at hdr
      | pciPciBridge x => simp [DeviceComponent.storageBackendRef] at hdr
      | qemuPvpanic x => simp [DeviceComponent.storageBackendRef] at hdr
      | softNpuPciPort x => simp [DeviceComponent.storageBackendRef] at hdr
      | softNpuPort x => simp [DeviceComponent.storageBackendRef] at hdr
      | softNpuP9 x => simp [DeviceComponent.storageBackendRef] at hdr
      | p9fs x => simp [DeviceComponent.storageBackendRef] at hdr
    rw [wireToGrouped, hdev, processDevices_ok_append _ hpre,
      processDevices, hproc]
  · intro w k v hm hsb hnoref
    rcases hpd : processDevices (initConvState w)
        (partitionComponents w.components).devices with e | st
    · exact ⟨e, by rw [wireToGrouped, hpd]⟩
    · have hs0 : (alookup k (initConvState w).storage_backends).isSome :=
        partition_storage_present hm hsb
      have hno : ∀ n dv,
          (n, dv) ∈ (partitionComponents w.components).devices →
          dv.storageBackendRef ≠ some k := by
        intro n dv hdm hcon
        have hcm := partition_devices_mem hdm
        have hinto : dv.into.diskBackendName = some k := by
          cases dv <;> simp [DeviceComponent.storageBackendRef] at hcon <;>
            simp [DeviceComponent.into, ComponentV0.diskBackendName, hcon]
        exact hnoref n dv.into hcm hinto
      have hs' := processDevices_keeps_unref hno hpd hs0
      rcases hsb' : st.storage_backends with _ | ⟨⟨k0, b0⟩, rest0⟩
      · rw [hsb'] at hs'
        simp [alookup] at hs'
      · exact ⟨.backendNotUsed k0, by
          rw [wireToGrouped, hpd]
          dsimp only
          rw [hsb']⟩
  · intro w k v hm hnoref
    rcases hpd : processDevices (initConvState w)
        (partitionComponents w.components).devices with e | st
    · exact ⟨e, by rw [wireToGrouped, hpd]⟩
    · have hs0 : (alookup k (initConvState w).viona_backends).isSome :=
        partition_viona_present hm
      have hno : ∀ n dv,
          (n, dv) ∈ (partitionComponents w.components).devices →
          dv.vionaBackendRef ≠ some k := by
        intro n dv hdm hcon
        have hcm := partition_devices_mem hdm
        have hinto : dv.into.nicBackendName = some k := by
          cases dv <;> simp [DeviceComponent.vionaBackendRef] at hcon
          simp [DeviceComponent.into, ComponentV0.nicBackendName, hcon]
        exact hnoref n dv.into hcm hinto
      have hs' := processDevices_keeps_unref_viona hno hpd hs0
      rcases hsb' : st.storage_backends with _ | ⟨⟨k0, b0⟩, rest0⟩
      · rcases hvb' : st.viona_backends with _ | ⟨⟨k1, b1⟩, rest1⟩
        · rw [hvb'] at hs'
          simp [alookup] at hs'
        · exact ⟨.backendNotUsed k1, by
            rw [wireToGrouped, hpd]
            dsimp only
            rw [hsb']
            dsimp only
            rw [hvb']⟩
      · exact ⟨.backendNotUsed k0, by
          rw [wireToGrouped, hpd]
          dsimp only
          rw [hsb']⟩
  · intro w k v hm
    rcases hpd : processDevices (initConvState w)
        (partitionComponents w.components).devices with e | st
    · exact ⟨e, by rw [wireToGrouped, hpd]⟩
    · have hs0 : (alookup k (initConvState w).dlpi_backends).isSome :=
        partition_dlpi_present hm
      have hs' : (alookup k st.dlpi_backends).isSome := by
        rw [processDevices_dlpi_eq hpd]
        exact hs0
      rcases hsb' : st.storage_backends with _ | ⟨⟨k0, b0⟩, rest0⟩
      · rcases hvb' : st.viona_backends with _ | ⟨⟨k1, b1⟩, rest1⟩
        · rcases hdb' : st.dlpi_backends with _ | ⟨⟨k2, b2⟩, rest2⟩
          · rw [hdb'] at hs'
            simp [alookup] at hs'
          · exact ⟨.backendNotUsed k2, by
              rw [wireToGrouped, hpd]
              dsimp only
              rw [hsb']
              dsimp only
              rw [hvb']
              dsimp only
              rw [hdb']⟩
        · exact ⟨.backendNotUsed k1, by
            rw [wireToGrouped, hpd]
            dsimp only
            rw [hsb']
            dsimp only
            rw [hvb']⟩
      · exact ⟨.backendNotUsed k0, by
          rw [wireToGrouped, hpd]
          dsimp only
          rw [hsb']⟩
  · intro w st k b rest hpd hsb
    rw [wireToGrouped, hpd]
    dsimp only
    rw [hsb]
  · intro w st k b rest hpd hsb hvb
    rw [wireToGrouped, hpd]
    dsimp only
    rw [hsb]
    dsimp only
    rw [hvb]
  · intro w st k b rest hpd hsb hvb hdb
    rw [wireToGrouped, hpd]
    dsimp only
    rw [hsb]
    dsimp only
    rw [hvb]
    dsimp only
    rw [hdb]

/-- C8 counterexample: a spec holding a NIC with a dangling network backend
and a disk with a dangling storage backend fails with
`NetworkBackendNotFound`, not with the `StorageBackendNotFound` error the
original claim promises for every spec containing such a disk. -/
theorem backend_linkage_counterexample :
    (("diskB", ComponentV0.virtioDisk ⟨"sb", ⟨0, 2, 0⟩⟩) ∈
      (InstanceSpecV0.mk ⟨1, 64, .i440Fx ⟨false⟩, .bhyveDefault⟩
        [("nicA", .virtioNic ⟨"nb", ⟨0, 1, 0⟩⟩),
         ("diskB", .virtioDisk ⟨"sb", ⟨0, 2, 0⟩⟩)]).components) ∧
    ((InstanceSpecV0.mk ⟨1, 64, .i440Fx ⟨false⟩, .bhyveDefault⟩
        [("nicA", .virtioNic ⟨"nb", ⟨0, 1, 0⟩⟩),
         ("diskB", .virtioDisk ⟨"sb", ⟨0, 2, 0⟩⟩)]).components.all
      (fun p => !(p.2.isStorageBackend && p.1 == "sb")) = true) ∧
    wireToGrouped
      (InstanceSpecV0.mk ⟨1, 64, .i440Fx ⟨false⟩, .bhyveDefault⟩
        [("nicA", .virtioNic ⟨"nb", ⟨0, 1, 0⟩⟩),
         ("diskB", .virtioDisk ⟨"sb", ⟨0, 2, 0⟩⟩)]) =
      .error (.networkBackendNotFound "nb" "nicA") ∧
    wireToGrouped
      (InstanceSpecV0.mk ⟨1, 64, .i440Fx ⟨false⟩, .bhyveDefault⟩
        [("nicA", .virtioNic ⟨"nb", ⟨0, 1, 0⟩⟩),
         ("diskB", .virtioDisk ⟨"sb", ⟨0, 2, 0⟩⟩)]) ≠
      .error (.storageBackendNotFound "sb" "diskB") := by
  refine ⟨by decide, by decide, by decide, by decide⟩

theorem backend_linkage_errors_witness :
    wireToGrouped
      (InstanceSpecV0.mk ⟨1, 64, .i440Fx ⟨false⟩, .bhyveDefault⟩
        [("d", .virtioDisk ⟨"nope", ⟨0, 9, 0⟩⟩)]) =
      .error (.storageBackendNotFound "nope" "d") :=
  backend_linkage_errors.2.1
    (InstanceSpecV0.mk ⟨1, 64, .i440Fx ⟨false⟩, .bhyveDefault⟩
      [("d", .virtioDisk ⟨"nope", ⟨0, 9, 0⟩⟩)])
    [] [] "d" "nope" (.virtioDisk ⟨"nope", ⟨0, 9, 0⟩⟩)
    (initConvState
      (InstanceSpecV0.mk ⟨1, 64, .i440Fx ⟨false⟩, .bhyveDefault⟩
        [("d", .virtioDisk ⟨"nope", ⟨0, 9, 0⟩⟩)]))
    (by decide) (by decide) (by decide)
    (by
      intro k v hm hsb
      simp at hm
      obtain ⟨h1, h2⟩ := hm
      subst h2
      simp [ComponentV0.isStorageBackend] at hsb)

theorem shared_backend_general_storage {w : InstanceSpecV0}
    {X Y Z : List (String × ComponentV0)} {n1 n2 bn : String}
    {c1 c2 : ComponentV0}
    (hcomp : w.components = X ++ (n1, c1) :: (Y ++ (n2, c2) :: Z))
    (h1 : c1.diskBackendName = some bn) (h2 : c2.diskBackendName = some bn)
    (hnd : (w.components.map Prod.fst).Nodup) :
    ∃ e, wireToGrouped w = .error e ∧ ∀ c, e ≠ .backendNotUsed c := by
  have hndsb : ((partitionComponents w.components).storage_backends.map
      Prod.fst).Nodup :=
    hnd.sublist (partition_storage_keys_sublist w.components)
  have hm2 : (n2, c2) ∈ Y ++ (n2, c2) :: Z :=
    List.mem_append_right _ (List.mem_cons_self _ _)
  obtain ⟨dv2, hmem2, hdr2⟩ := partition_devices_of_disk hm2 h2
  cases c1 with
  | virtioDisk dd =>
    rw [ComponentV0.diskBackendName] at h1
    injection h1 with h1e
    have hdevices : (partitionComponents w.components).devices =
        (partitionComponents X).devices ++ (n1, .virtioDisk dd) ::
          (partitionComponents (Y ++ (n2, c2) :: Z)).devices := by
      rw [hcomp, partition_append]
      simp [partitionComponents]
    obtain ⟨e, he⟩ := @processDevices_shared_storage
      (partitionComponents X).devices
      (partitionComponents (Y ++ (n2, c2) :: Z)).devices
      (initConvState w) n1 n2 bn (.virtioDisk dd) dv2
      (by rw [DeviceComponent.storageBackendRef, h1e]) hmem2 hdr2 hndsb
    refine ⟨e, ?_, processDevices_error_shape he⟩
    rw [wireToGrouped, hdevices, he]
  | nvmeDisk dd =>
    rw [ComponentV0.diskBackendName] at h1
    injection h1 with h1e
    have hdevices : (partitionComponents w.components).devices =
        (partitionComponents X).devices ++ (n1, .nvmeDisk dd) ::
          (partitionComponents (Y ++ (n2, c2) :: Z)).devices := by
      rw [hcomp, partition_append]
      simp [partitionComponents]
    obtain ⟨e, he⟩ := @processDevices_shared_storage
      (partitionComponents X).devices
      (partitionComponents (Y ++ (n2, c2) :: Z)).devices
      (initConvState w) n1 n2 bn (.nvmeDisk dd) dv2
      (by rw [DeviceComponent.storageBackendRef, h1e]) hmem2 hdr2 hndsb
    refine ⟨e, ?_, processDevices_error_shape he⟩
    rw [wireToGrouped, hdevices, he]
  | virtioNic x => simp [ComponentV0.diskBackendName] at h1
  | serialPort x => simp [ComponentV0.diskBackendName] at h1
  | pciPciBridge x => simp [ComponentV0.diskBackendName] at h1
  | qemuPvpanic x => simp [ComponentV0.diskBackendName] at h1
  | softNpuPciPort x => simp [ComponentV0.diskBackendName] at h1
  | softNpuPort x => simp [ComponentV0.diskBackendName] at h1
  | softNpuP9 x => simp [ComponentV0.diskBackendName] at h1
  | p9fs x => simp [ComponentV0.diskBackendName] at h1
  | crucibleBackend x => simp [ComponentV0.diskBackendName] at h1
  | fileStorageBackend x => simp [ComponentV0.diskBackendName] at h1
  | blobStorageBackend x => simp [ComponentV0.diskBackendName] at h1
  | vionaBackend x => simp [ComponentV0.diskBackendName] at h1
  | dlpiBackend x => simp [ComponentV0.diskBackendName] at h1

theorem shared_backend_general_viona {w : InstanceSpecV0}
    {X Y Z : List (String × ComponentV0)} {n1 n2 bn : String}
    {c1 c2 : ComponentV0}
    (hcomp : w.components = X ++ (n1, c1) :: (Y ++ (n2, c2) :: Z))
    (h1 : c1.nicBackendName = some bn) (h2 : c2.nicBackendName = some bn)
    (hnd : (w.components.map Prod.fst).Nodup) :
    ∃ e, wireToGrouped w = .error e ∧ ∀ c, e ≠ .backendNotUsed c := by
  have hndvb : ((partitionComponents w.components).viona_backends.map
      Prod.fst).Nodup :=
    hnd.sublist (partition_viona_keys_sublist w.components)
  have hm2 : (n2, c2) ∈ Y ++ (n2, c2) :: Z :=
    List.mem_append_right _ (List.mem_cons_self _ _)
  obtain ⟨dv2, hmem2, hdr2⟩ := partition_devices_of_nic hm2 h2
  cases c1 with
  | virtioNic nic =>
    rw [ComponentV0.nicBackendName] at h1
    injection h1 with h1e
    have hdevices : (partitionComponents w.components).devices =
        (partitionComponents X).devices ++ (n1, .virtioNic nic) ::
          (partitionComponents (Y ++ (n2, c2) :: Z)).devices := by
      rw [hcomp, partition_append]
      simp [partitionComponents]
    obtain ⟨e, he⟩ := @processDevices_shared_viona
      (partitionComponents X).devices
      (partitionComponents (Y ++ (n2, c2) :: Z)).devices
      (initConvState w) n1 n2 bn (.virtioNic nic) dv2
      (by rw [DeviceComponent.vionaBackendRef, h1e]) hmem2 hdr2 hndvb
    refine ⟨e, ?_, processDevices_error_shape he⟩
    rw [wireToGrouped, hdevices, he]
  | virtioDisk x => simp [ComponentV0.nicBackendName] at h1
  | nvmeDisk x => simp [ComponentV0.nicBackendName] at h1
  | serialPort x => simp [ComponentV0.nicBackendName] at h1
  | pciPciBridge x => simp [ComponentV0.nicBackendName] at h1
  | qemuPvpanic x => simp [ComponentV0.nicBackendName] at h1
  | softNpuPciPort x => simp [ComponentV0.nicBackendName] at h1
  | softNpuPort x => simp [ComponentV0.nicBackendName] at h1
  | softNpuP9 x => simp [ComponentV0.nicBackendName] at h1
  | p9fs x => simp [ComponentV0.nicBackendName] at h1
  | crucibleBackend x => simp [ComponentV0.nicBackendName] at h1
  | fileStorageBackend x => simp [ComponentV0.nicBackendName] at h1
  | blobStorageBackend x => simp [ComponentV0.nicBackendName] at h1
  | vionaBackend x => simp [ComponentV0.nicBackendName] at h1
  | dlpiBackend x => simp [ComponentV0.nicBackendName] at h1

theorem add_storage_device_fresh (board : Board) (n : String) (d : Disk)
    (hne : d.device_spec.backend_name ≠ n) :
    ∃ b2, (ServerSpecBuilder.with_board board).add_storage_device n d =
      .ok b2 :=
  ⟨_, by
    simp only [ServerSpecBuilder.add_storage_device,
      ServerSpecBuilder.takeName, ServerSpecBuilder.takePciPath,
      ServerSpecBuilder.with_board, bind, Except.bind]
    simp [hne]
    rfl⟩

theorem add_network_device_fresh (board : Board) (n : String) (nic : Nic)
    (hne : nic.device_spec.backend_name ≠ n) :
    ∃ b2, (ServerSpecBuilder.with_board board).add_network_device n nic =
      .ok b2 :=
  ⟨_, by
    simp only [ServerSpecBuilder.add_network_device,
      ServerSpecBuilder.takeName, ServerSpecBuilder.takePciPath,
      ServerSpecBuilder.with_board, bind, Except.bind]
    simp [hne]
    rfl⟩

theorem shared_backend_first_two_storage {w : InstanceSpecV0}
    {n1 n2 bn : String} {dv1 dv2 : DeviceComponent}
    {rest : List (String × DeviceComponent)}
    (hdev : (partitionComponents w.components).devices =
      (n1, dv1) :: (n2, dv2) :: rest)
    (h1 : dv1.storageBackendRef = some bn)
    (h2 : dv2.storageBackendRef = some bn)
    (hsome : (alookup bn
      (partitionComponents w.components).storage_backends).isSome)
    (hnd : ((partitionComponents w.components).storage_backends.map
      Prod.fst).Nodup)
    (hne : bn ≠ n1) :
    wireToGrouped w = .error (.storageBackendNotFound bn n2) := by
  obtain ⟨bspec, rest', hrem⟩ := removeEntry_isSome hsome
  have hnone : alookup bn rest' = none := (removeEntry_nodup hnd hrem).2
  have step2 : ∀ st2 : ConvState, st2.storage_backends = rest' →
      processDevice st2 n2 dv2 =
        .error (.storageBackendNotFound bn n2) := by
    intro st2 hst2
    cases dv2 with
    | virtioDisk dd =>
      rw [DeviceComponent.storageBackendRef] at h2
      injection h2 with h2e
      subst h2e
      rw [processDevice, hst2, removeEntry_none.mpr hnone]
    | nvmeDisk dd =>
      rw [DeviceComponent.storageBackendRef] at h2
      injection h2 with h2e
      subst h2e
      rw [processDevice, hst2, removeEntry_none.mpr hnone]
    | virtioNic x => simp [DeviceComponent.storageBackendRef] at h2
    | serialPort x => simp [DeviceComponent.storageBackendRef] at h2
    | pciPciBridge x => simp [DeviceComponent.storageBackendRef] at h2
    | qemuPvpanic x => simp [DeviceComponent.storageBackendRef] at h2
    | softNpuPciPort x => simp [DeviceComponent.storageBackendRef] at h2
    | softNpuPort x => simp [DeviceComponent.storageBackendRef] at h2
    | softNpuP9 x => simp [DeviceComponent.storageBackendRef] at h2
    | p9fs x => simp [DeviceComponent.storageBackendRef] at h2
  cases dv1 with
  | virtioDisk dd =>
    rw [DeviceComponent.storageBackendRef] at h1
    injection h1 with h1e
    subst h1e
    obtain ⟨b2, hadd⟩ := add_storage_device_fresh w.board n1
      ⟨.virtioDisk dd, bspec⟩ hne
    have hp1 : processDevice (initConvState w) n1 (.virtioDisk dd) =
        .ok ⟨b2, rest', (initConvState w).viona_backends,
          (initConvState w).dlpi_backends⟩ := by
      rw [processDevice]
      simp only [initConvState]
      rw [hrem]
      dsimp only
      rw [hadd]
      rfl
    rw [wireToGrouped, hdev, processDevices, hp1]
    dsimp only
    rw [processDevices, step2 _ rfl]
  | nvmeDisk dd =>
    rw [DeviceComponent.storageBackendRef] at h1
    injection h1 with h1e
    subst h1e
    obtain ⟨b2, hadd⟩ := add_storage_device_fresh w.board n1
      ⟨.nvmeDisk dd, bspec⟩ hne
    have hp1 : processDevice (initConvState w) n1 (.nvmeDisk dd) =
        .ok ⟨b2, rest', (initConvState w).viona_backends,
          (initConvState w).dlpi_backends⟩ := by
      rw [processDevice]
      simp only [initConvState]
      rw [hrem]
      dsimp only
      rw [hadd]
      rfl
    rw [wireToGrouped, hdev, processDevices, hp1]
    dsimp only
    rw [processDevices, step2 _ rfl]
  | virtioNic x => simp [DeviceComponent.storageBackendRef] at h1
  | serialPort x => simp [DeviceComponent.storageBackendRef] at h1
  | pciPciBridge x => simp [DeviceComponent.storageBackendRef] at h1
  | qemuPvpanic x => simp [DeviceComponent.storageBackendRef] at h1
  | softNpuPciPort x => simp [DeviceComponent.storageBackendRef] at h1
  | softNpuPort x => simp [DeviceComponent.storageBackendRef] at h1
  | softNpuP9 x => simp [DeviceComponent.storageBackendRef] at h1
  | p9fs x => simp [DeviceComponent.storageBackendRef] at h1

theorem shared_backend_first_two_viona {w : InstanceSpecV0}
    {n1 n2 bn : String} {dv1 dv2 : DeviceComponent}
    {rest : List (String × DeviceComponent)}
    (hdev : (partitionComponents w.components).devices =
      (n1, dv1) :: (n2, dv2) :: rest)
    (h1 : dv1.vionaBackendRef = some bn)
    (h2 : dv2.vionaBackendRef = some bn)
    (hsome : (alookup bn
      (partitionComponents w.components).viona_backends).isSome)
    (hnd : ((partitionComponents w.components).viona_backends.map
      Prod.fst).Nodup)
    (hne : bn ≠ n1) :
    wireToGrouped w = .error (.networkBackendNotFound bn n2) := by
  obtain ⟨bspec, rest', hrem⟩ := removeEntry_isSome hsome
  have hnone : alookup bn rest' = none := (removeEntry_nodup hnd hrem).2
  have step2 : ∀ st2 : ConvState, st2.viona_backends = rest' →
      processDevice st2 n2 dv2 =
        .error (.networkBackendNotFound bn n2) := by
    intro st2 hst2
    cases dv2 with
    | virtioNic nic =>
      rw [DeviceComponent.vionaBackendRef] at h2
      injection h2 with h2e
      subst h2e
      rw [processDevice, hst2, removeEntry_none.mpr hnone]
    | virtioDisk x => simp [DeviceComponent.vionaBackendRef] at h2
    | nvmeDisk x => simp [DeviceComponent.vionaBackendRef] at h2
    | serialPort x => simp [DeviceComponent.vionaBackendRef] at h2
    | pciPciBridge x => simp [DeviceComponent.vionaBackendRef] at h2
    | qemuPvpanic x => simp [DeviceComponent.vionaBackendRef] at h2
    | softNpuPciPort x => simp [DeviceComponent.vionaBackendRef] at h2
    | softNpuPort x => simp [DeviceComponent.vionaBackendRef] at h2
    | softNpuP9 x => simp [DeviceComponent.vionaBackendRef] at h2
    | p9fs x => simp [DeviceComponent.vionaBackendRef] at h2
  cases dv1 with
  | virtioNic nic =>
    rw [DeviceComponent.vionaBackendRef] at h1
    injection h1 with h1e
    subst h1e
    obtain ⟨b2, hadd⟩ := add_network_device_fresh w.board n1
      ⟨nic, bspec⟩ hne
    have hp1 : processDevice (initConvState w) n1 (.virtioNic nic) =
        .ok ⟨b2, (initConvState w).storage_backends, rest',
          (initConvState w).dlpi_backends⟩ := by
      rw [processDevice]
      simp only [initConvState]
      rw [hrem]
      dsimp only
      rw [hadd]
      rfl
    rw [wireToGrouped, hdev, processDevices, hp1]
    dsimp only
    rw [processDevices, step2 _ rfl]
  | virtioDisk x => simp [DeviceComponent.vionaBackendRef] at h1
  | nvmeDisk x => simp [DeviceComponent.vionaBackendRef] at h1
  | serialPort x => simp [DeviceComponent.vionaBackendRef] at h1
  | pciPciBridge x => simp [DeviceComponent.vionaBackendRef] at h1
  | qemuPvpanic x => simp [DeviceComponent.vionaBackendRef] at h1
  | softNpuPciPort x => simp [DeviceComponent.vionaBackendRef] at h1
  | softNpuPort x => simp [DeviceComponent.vionaBackendRef] at h1
  | softNpuP9 x => simp [DeviceComponent.vionaBackendRef] at h1
  | p9fs x => simp [DeviceComponent.vionaBackendRef] at h1

/-- C10: two disk devices referencing the same storage backend name (or two
NIC devices the same network backend name) always make wire-to-grouped
conversion fail, and never with `BackendNotUsed`; when the two sharing
devices are the first devices processed and the backend exists, the second
device fails with exactly `StorageBackendNotFound` (resp.
`NetworkBackendNotFound`) naming the backend and that device. -/
theorem shared_backend_conversion_fails :
    (∀ (w : InstanceSpecV0) (X Y Z : List (String × ComponentV0))
        (n1 n2 bn : String) (c1 c2 : ComponentV0),
      w.components = X ++ (n1, c1) :: (Y ++ (n2, c2) :: Z) →
      c1.diskBackendName = some bn → c2.diskBackendName = some bn →
      (w.components.map Prod.fst).Nodup →
      ∃ e, wireToGrouped w = .error e ∧ ∀ c, e ≠ .backendNotUsed c) ∧
    (∀ (w : InstanceSpecV0) (X Y Z : List (String × ComponentV0))
        (n1 n2 bn : String) (c1 c2 : ComponentV0),
      w.components = X ++ (n1, c1) :: (Y ++ (n2, c2) :: Z) →
      c1.nicBackendName = some bn → c2.nicBackendName = some bn →
      (w.components.map Prod.fst).Nodup →
      ∃ e, wireToGrouped w = .error e ∧ ∀ c, e ≠ .backendNotUsed c) ∧
    (∀ (w : InstanceSpecV0) (n1 n2 bn : String) (dv1 dv2 : DeviceComponent)
        (rest : List (String × DeviceComponent)),
      (partitionComponents w.components).devices =
        (n1, dv1) :: (n2, dv2) :: rest →
      dv1.storageBackendRef = some bn → dv2.storageBackendRef = some bn →
      (alookup bn
        (partitionComponents w.components).storage_backends).isSome →
      ((partitionComponents w.components).storage_backends.map
        Prod.fst).Nodup →
      bn ≠ n1 →
      wireToGrouped w = .error (.storageBackendNotFound bn n2)) ∧
    (∀ (w : InstanceSpecV0) (n1 n2 bn : String) (dv1 dv2 : DeviceComponent)
        (rest : List (String × DeviceComponent)),
      (partitionComponents w.components).devices =
        (n1, dv1) :: (n2, dv2) :: rest →
      dv1.vionaBackendRef = some bn → dv2.vionaBackendRef = some bn →
      (alookup bn
        (partitionComponents w.components).viona_backends).isSome →
      ((partitionComponents w.components).viona_backends.map
        Prod.fst).Nodup →
      bn ≠ n1 →
      wireToGrouped w = .error (.networkBackendNotFound bn n2)) := by
  refine ⟨?_, ?_, ?_, ?_⟩
  · intro w X Y Z n1 n2 bn c1 c2 hc h1 h2 hnd
    exact shared_backend_general_storage hc h1 h2 hnd
  · intro w X Y Z n1 n2 bn c1 c2 hc h1 h2 hnd
    exact shared_backend_general_viona hc h1 h2 hnd
  · intro w n1 n2 bn dv1 dv2 rest hdev h1 h2 hsome hnd hne
    exact shared_backend_first_two_storage hdev h1 h2 hsome hnd hne
  · intro w n1 n2 bn dv1 dv2 rest hdev h1 h2 hsome hnd hne
    exact shared_backend_first_two_viona hdev h1 h2 hsome hnd hne

theorem shared_backend_conversion_fails_witness :
    wireToGrouped
      (InstanceSpecV0.mk ⟨1, 64, .i440Fx ⟨false⟩, .bhyveDefault⟩
        [("d1", .virtioDisk ⟨"sb", ⟨0, 4, 0⟩⟩),
         ("d2", .virtioDisk ⟨"sb", ⟨0, 5, 0⟩⟩),
         ("sb", .crucibleBackend ⟨"req", false⟩)]) =
      .error (.storageBackendNotFound "sb" "d2") :=
  shared_backend_conversion_fails.2.2.1
    (InstanceSpecV0.mk ⟨1, 64, .i440Fx ⟨false⟩, .bhyveDefault⟩
      [("d1", .virtioDisk ⟨"sb", ⟨0, 4, 0⟩⟩),
       ("d2", .virtioDisk ⟨"sb", ⟨0, 5, 0⟩⟩),
       ("sb", .crucibleBackend ⟨"req", false⟩)])
    "d1" "d2" "sb" (.virtioDisk ⟨"sb", ⟨0, 4, 0⟩⟩)
    (.virtioDisk ⟨"sb", ⟨0, 5, 0⟩⟩) []
    (by decide) (by decide) (by decide) (by decide) (by decide) (by decide)
